import Mathlib

/-!
Shallow embedding of the ADB-server client protocol engine
(`AdbServerClient` and `raceSignal` from the repository source).

Byte streams are `List Nat` (each element one byte), fallible operations
return `Except AdbError`, and the stateful client operations are explicit
state transformers over a scripted connector (`M` below) that also record
an observable event trace (writes, reader cancellation, connection close).
-/

namespace AdbSpec

/-- Error kinds thrown by the client (spec §7; the source throws `Error`
objects with distinguishing messages). -/
inductive AdbError where
  | transportError
  | protocolFailure (reason : String)
  | unexpectedResponse (response : String)
  | unexpectedEnd
  | decodeError
  | invalidSelector
  | missingTransportId (serial : String)
  | versionMismatch (server client : Nat)
  | aborted (reason : String)
  deriving DecidableEq

/-! ## Hex codec

Modelled from the spec: `hexToNumber` / `numberToHex` live in
`libraries/adb/src/utils` which is not part of the given sources.
Spec §4.2: four ASCII hex digits, lower- or upper-case accepted on parse,
emission is lower-case, big-endian nibble order. `hexToNumber` is used by
the source on buffers of any length, so the model folds over the buffer. -/

def hexDigitValue (b : Nat) : Option Nat :=
  if 48 ≤ b ∧ b ≤ 57 then some (b - 48)
  else if 97 ≤ b ∧ b ≤ 102 then some (b - 87)
  else if 65 ≤ b ∧ b ≤ 70 then some (b - 55)
  else none

def hexToNumber (bs : List Nat) : Option Nat :=
  bs.foldl (fun acc b => acc.bind fun a => (hexDigitValue b).map fun d => a * 16 + d)
    (some 0)

/-- One lower-case ASCII hex digit. -/
def hexDigitChar (d : Nat) : Nat :=
  if d < 10 then 48 + d else 87 + d

/-- Four lower-case ASCII hex digits, big-endian nibble order. -/
def numberToHex (n : Nat) : List Nat :=
  [hexDigitChar (n / 4096 % 16), hexDigitChar (n / 256 % 16),
   hexDigitChar (n / 16 % 16), hexDigitChar (n % 16)]

/-! ## Exact reads (`BufferedReadableStream.readExactly`)

Modelled from the spec (§4.3): the buffered reader is repository code that
is not among the given sources; `read_exactly(n)` yields the next `n`
bytes and fails with `UnexpectedEnd` if the stream closes first. -/

def readExactly : Nat → List Nat → Except AdbError (List Nat × List Nat)
  | 0, s => .ok ([], s)
  | _ + 1, [] => .error .unexpectedEnd
  | n + 1, b :: s => (readExactly n s).map fun p => (b :: p.1, p.2)

/-! ## UTF-8 codec

Modelled from the spec: `encodeUtf8` / `decodeUtf8` come from the
`struct` package of the repository, which is not among the given sources.
`decodeUtf8` wraps a WHATWG `TextDecoder` (never throws; ill-formed input
decodes to U+FFFD replacement characters), `encodeUtf8` a `TextEncoder`. -/

def utf8EncodeChar (c : Char) : List Nat :=
  let n := c.toNat
  if n < 0x80 then [n]
  else if n < 0x800 then [0xC0 + n / 64, 0x80 + n % 64]
  else if n < 0x10000 then
    [0xE0 + n / 4096, 0x80 + n / 64 % 64, 0x80 + n % 64]
  else
    [0xF0 + n / 262144, 0x80 + n / 4096 % 64, 0x80 + n / 64 % 64, 0x80 + n % 64]

def encodeChars : List Char → List Nat
  | [] => []
  | c :: cs => utf8EncodeChar c ++ encodeChars cs

def encodeUtf8 (s : String) : List Nat := encodeChars s.data

/-- The U+FFFD replacement character a lossy decoder emits. -/
def replChar : Char := Char.ofNat 0xFFFD

/-- Decode one scalar of a lossy UTF-8 decoding: `b` is the byte at hand,
`bs` the bytes after it; the result is the decoded character (ill-formed
subsequences become `replChar`, consuming only the offending lead byte so
decoding resumes at the next byte) and the remaining bytes. Well-formed
decoding rejects overlong forms, surrogates, and values above U+10FFFF,
so every non-replacement multi-byte scalar emitted is a valid `Char`
that is at least U+0080. -/
def decodeOne (b : Nat) (bs : List Nat) : Char × List Nat :=
  if b < 0x80 then (Char.ofNat b, bs)
  else if b < 0xC2 then (replChar, bs)
  else if b < 0xE0 then
    match bs with
    | b1 :: bs1 =>
      if 0x80 ≤ b1 ∧ b1 < 0xC0 then
        (Char.ofNat ((b - 0xC0) * 64 + (b1 - 0x80)), bs1)
      else (replChar, b1 :: bs1)
    | [] => (replChar, [])
  else if b < 0xF0 then
    match bs with
    | b1 :: b2 :: bs2 =>
      if 0x80 ≤ b1 ∧ b1 < 0xC0 ∧ 0x80 ≤ b2 ∧ b2 < 0xC0 then
        if (b - 0xE0) * 4096 + (b1 - 0x80) * 64 + (b2 - 0x80) < 0x800
            ∨ (0xD800 ≤ (b - 0xE0) * 4096 + (b1 - 0x80) * 64 + (b2 - 0x80)
               ∧ (b - 0xE0) * 4096 + (b1 - 0x80) * 64 + (b2 - 0x80) < 0xE000) then
          (replChar, bs2)
        else (Char.ofNat ((b - 0xE0) * 4096 + (b1 - 0x80) * 64 + (b2 - 0x80)), bs2)
      else (replChar, b1 :: b2 :: bs2)
    | rest => (replChar, rest.drop 1)
  else if b < 0xF5 then
    match bs with
    | b1 :: b2 :: b3 :: bs3 =>
      if 0x80 ≤ b1 ∧ b1 < 0xC0 ∧ 0x80 ≤ b2 ∧ b2 < 0xC0 ∧ 0x80 ≤ b3 ∧ b3 < 0xC0 then
        if (b - 0xF0) * 262144 + (b1 - 0x80) * 4096 + (b2 - 0x80) * 64 + (b3 - 0x80) < 0x10000
            ∨ 0x110000 ≤ (b - 0xF0) * 262144 + (b1 - 0x80) * 4096 + (b2 - 0x80) * 64
                + (b3 - 0x80) then
          (replChar, bs3)
        else
          (Char.ofNat ((b - 0xF0) * 262144 + (b1 - 0x80) * 4096 + (b2 - 0x80) * 64
            + (b3 - 0x80)), bs3)
      else (replChar, b1 :: b2 :: b3 :: bs3)
    | rest => (replChar, rest.drop rest.length)
  else (replChar, bs)

/-- Lossy UTF-8 decoding with explicit fuel (every step consumes at least
the lead byte, so `bs.length` fuel always suffices). -/
def decodeCharsF : Nat → List Nat → List Char
  | _, [] => []
  | 0, _ :: _ => []
  | fuel + 1, b :: bs =>
    let (c, rest) := decodeOne b bs
    c :: decodeCharsF fuel rest

/-- Lossy UTF-8 decoding of a byte list. -/
def decodeChars (bs : List Nat) : List Char := decodeCharsF bs.length bs

def decodeUtf8 (bs : List Nat) : String := ⟨decodeChars bs⟩

/-! ## String frames (`AdbServerClient.readString` / `writeString`) -/

/-- `AdbServerClient.readString`: read 4 bytes, parse them as a hex
length, read that many payload bytes (none when the length is zero), and
decode the payload as UTF-8. Returns the string and the rest of the
stream. -/
def readString (s : List Nat) : Except AdbError (String × List Nat) :=
  match readExactly 4 s with
  | .error e => .error e
  | .ok (lenBuf, s1) =>
    match hexToNumber lenBuf with
    | none => .error .decodeError
    | some length =>
      if length = 0 then
        .ok (decodeUtf8 [], s1)
      else
        match readExactly length s1 with
        | .error e => .error e
        | .ok (valueBuf, s2) => .ok (decodeUtf8 valueBuf, s2)

/-- `AdbServerClient.writeString`: UTF-8 encode the value, prepend the
4-hex-digit byte length, one contiguous write. Returns the bytes put on
the wire. -/
def writeString (value : String) : List Nat :=
  numberToHex (encodeUtf8 value).length ++ encodeUtf8 value

/-- `AdbServerClient.readOkay`: read 4 bytes and decode them; `"OKAY"`
succeeds, `"FAIL"` reads a string frame and fails with it as the reason,
anything else fails with an unexpected-response error. -/
def readOkay (s : List Nat) : Except AdbError (Unit × List Nat) :=
  match readExactly 4 s with
  | .error e => .error e
  | .ok (respBuf, s1) =>
    if decodeUtf8 respBuf = "OKAY" then
      .ok ((), s1)
    else if decodeUtf8 respBuf = "FAIL" then
      match readString s1 with
      | .error e => .error e
      | .ok (reason, _) => .error (.protocolFailure reason)
    else
      .error (.unexpectedResponse (decodeUtf8 respBuf))

/-- The 4 ASCII bytes of `"OKAY"`. -/
def okayBytes : List Nat := [0x4F, 0x4B, 0x41, 0x59]

/-- The 4 ASCII bytes of `"FAIL"`. -/
def failBytes : List Nat := [0x46, 0x41, 0x49, 0x4C]

/-! ## JavaScript-style string splitting

The source splits strings with `String.prototype.split` on one-character
separators (`"\n"`, `" "`, `":"`, `","`); this models exactly that. -/

def splitChar (sep : Char) : List Char → List (List Char)
  | [] => [[]]
  | c :: cs =>
    if c = sep then [] :: splitChar sep cs
    else
      match splitChar sep cs with
      | r :: rs => (c :: r) :: rs
      | [] => [[c]]

/-- `s.split(sep)` for a one-character separator `sep`. -/
def jsSplit (sep : Char) (s : String) : List String :=
  (splitChar sep s.data).map fun l => ⟨l⟩

/-- `BigInt(value)` on the strings the devices parser can feed it: the
empty string is `0`, a decimal digit string is its value, anything else
throws (modelled as `none`). -/
def jsBigInt (s : String) : Option Nat :=
  if s = "" then some 0
  else
    s.data.foldl
      (fun acc c =>
        acc.bind fun a =>
          if 48 ≤ c.toNat ∧ c.toNat ≤ 57 then some (a * 10 + (c.toNat - 48)) else none)
      (some 0)

/-! ## `devices-l` parsing (`AdbServerClient.getDevices` loop body) -/

structure AdbServerDevice where
  serial : String
  product : Option String
  model : Option String
  device : Option String
  transportId : Nat
  deriving DecidableEq

/-- Accumulator of the `key:value` loop inside `getDevices`. -/
structure LineAcc where
  product : Option String
  model : Option String
  device : Option String
  transportId : Option Nat
  deriving DecidableEq

/-- One `key:value` token (`parts[i].split(":")`, first two components;
only `product`, `model`, `device`, `transport_id` are recognised). -/
def parseToken (acc : LineAcc) (tok : String) : Except AdbError LineAcc :=
  match jsSplit ':' tok with
  | [] => .ok acc
  | key :: restParts =>
    if key = "product" then .ok { acc with product := restParts.get? 0 }
    else if key = "model" then .ok { acc with model := restParts.get? 0 }
    else if key = "device" then .ok { acc with device := restParts.get? 0 }
    else if key = "transport_id" then
      match restParts.get? 0 with
      | none => .error .decodeError
      | some v =>
        match jsBigInt v with
        | none => .error .decodeError
        | some n => .ok { acc with transportId := some n }
    else .ok acc

/-- The `key:value` loop of `getDevices` over the tokens after the first
two (`for (let i = 2; i < parts.length; i += 1)`). -/
def parseTokens : List String → LineAcc → Except AdbError LineAcc
  | [], acc => .ok acc
  | tok :: rest, acc =>
    match parseToken acc tok with
    | .error e => .error e
    | .ok acc1 => parseTokens rest acc1

/-- The whitespace tokens of one line: `line.split(" ").filter(Boolean)`. -/
def lineTokens (line : String) : List String :=
  (jsSplit ' ' line).filter fun t => t ≠ ""

/-- One line of the `devices-l` payload. `none` means the line was
skipped (status token not `"device"`); the missing/zero `transport_id`
check is the `if (!transportId) throw` of the source. -/
def parseLine (line : String) : Except AdbError (Option AdbServerDevice) :=
  if (lineTokens line).get? 1 = some "device" then
    match parseTokens ((lineTokens line).drop 2) ⟨none, none, none, none⟩ with
    | .error e => .error e
    | .ok acc =>
      match acc.transportId with
      | none => .error (.missingTransportId (((lineTokens line).get? 0).getD ""))
      | some 0 => .error (.missingTransportId (((lineTokens line).get? 0).getD ""))
      | some n =>
        .ok (some ⟨((lineTokens line).get? 0).getD "", acc.product, acc.model, acc.device, n⟩)
  else
    .ok none

/-- The line loop of `getDevices`: skip empty lines, collect parsed
entries in order, abort on the first failing line. -/
def parseLines : List String → List AdbServerDevice → Except AdbError (List AdbServerDevice)
  | [], acc => .ok acc
  | line :: rest, acc =>
    if line = "" then parseLines rest acc
    else
      match parseLine line with
      | .error e => .error e
      | .ok none => parseLines rest acc
      | .ok (some d) => parseLines rest (acc ++ [d])

/-- The whole `devices-l` payload: split on `"\n"`, then run the loop. -/
def parseDevices (response : String) : Except AdbError (List AdbServerDevice) :=
  parseLines (jsSplit '\n' response) []

/-! ## Device selectors

The TypeScript selector is `undefined` or an object; the branches test
key presence (`"transportId" in device`, …) in a fixed order, so the
runtime value is modelled as an object that may carry any subset of the
recognised discriminants. -/

structure DeviceSelectorObj where
  transportId : Option Nat
  serial : Option String
  usb : Bool
  tcp : Bool
  deriving DecidableEq

abbrev AdbServerDeviceSelector := Option DeviceSelectorObj

/-- `AdbServerClient.formatDeviceService`. -/
def formatDeviceService (device : AdbServerDeviceSelector) (command : String) :
    Except AdbError String :=
  match device with
  | none => .ok ("host:" ++ command)
  | some d =>
    match d.transportId with
    | some t => .ok ("host-transport-id:" ++ toString t ++ ":" ++ command)
    | none =>
      match d.serial with
      | some sn => .ok ("host-serial:" ++ sn ++ ":" ++ command)
      | none =>
        if d.usb then .ok ("host-usb:" ++ command)
        else if d.tcp then .ok ("host-local:" ++ command)
        else .error .invalidSelector

/-- The selector dispatch of `AdbServerClient.connectDevice` (lines
335–348): the switch service, plus the transport id when it is already
known (in which case the handshake's 8-byte read is skipped). -/
def computeSwitchService (device : AdbServerDeviceSelector) :
    Except AdbError (String × Option Nat) :=
  match device with
  | none => .ok ("host:tport:any", none)
  | some d =>
    match d.transportId with
    | some t => .ok ("host:transport-id:" ++ toString t, some t)
    | none =>
      match d.serial with
      | some sn => .ok ("host:tport:serial:" ++ sn, none)
      | none =>
        if d.usb then .ok ("host:tport:usb", none)
        else if d.tcp then .ok ("host:tport:local", none)
        else .error .invalidSelector

/-- `BigIntFieldType.Uint64.getter(dataView, 0, true)`: little-endian
unsigned 64-bit decode of the 8 bytes read during the handshake. -/
def uint64LE (bs : List Nat) : Nat :=
  bs.foldr (fun b acc => b + 256 * acc) 0

/-! ## Scripted connections and the client monad

`connector.connect` hands out fresh connections. Each connection's
behaviour is pre-scripted: the bytes the server will send, and whether
the transport write, `readable.cancel()` and `close()` succeed or
reject. The client operations are state transformers that also record an
event trace, so cleanup obligations (what was written, whether the
reader was cancelled and the connection closed, and in which order)
are observable. -/

structure ConnBehavior where
  /-- Bytes the server sends on this connection, in order. -/
  serverBytes : List Nat
  /-- Outcome of the first `writer.write` on this connection. -/
  writeErr0 : Option AdbError
  /-- Outcome of the second `writer.write` (the service frame written by
  `connectDevice`). -/
  writeErr1 : Option AdbError
  /-- `readable.cancel()` outcome. -/
  cancelErr : Option AdbError
  /-- `close()` outcome. -/
  closeErr : Option AdbError
  deriving DecidableEq

inductive Ev where
  /-- A successful transport write of these bytes. -/
  | write (bs : List Nat)
  /-- `readable.cancel()` was invoked. -/
  | cancel
  /-- `connection.close()` was invoked. -/
  | close
  /-- `connection.writable.close()` was invoked (the `finally` blocks of
  the one-shot commands). -/
  | closeWritable
  deriving DecidableEq

structure ClientState where
  conns : List ConnBehavior
  used : Nat
  trace : List (Nat × Ev)
  deriving DecidableEq

def initS (conns : List ConnBehavior) : ClientState := ⟨conns, 0, []⟩

def M (α : Type) : Type := ClientState → Except AdbError α × ClientState

/-- Append one event to the trace. -/
def emitTo (s : ClientState) (i : Nat) (ev : Ev) : ClientState :=
  { s with trace := s.trace ++ [(i, ev)] }

/-- `this.connection.connect(options)`: hand out the next scripted
connection (its index). -/
def dial : M Nat := fun s =>
  match s.conns.get? s.used with
  | some _ => (.ok s.used, { s with used := s.used + 1 })
  | none => (.error .transportError, s)

/-- A `writer.write(buffer)` on connection `i`; `which` distinguishes the
first and second write sites of the source. A successful write appends a
`.write` event; a rejected write appends nothing. -/
def writeConn (i : Nat) (which : Nat) (bs : List Nat) : M Unit := fun s =>
  match s.conns.get? i with
  | none => (.error .transportError, s)
  | some cb =>
    match (if which = 0 then cb.writeErr0 else cb.writeErr1) with
    | some e => (.error e, s)
    | none => (.ok (), emitTo s i (.write bs))

/-- `readable.cancel()` — invocation recorded, rejection propagated. -/
def cancelConn (i : Nat) : M Unit := fun s =>
  match s.conns.get? i with
  | none => (.error .transportError, s)
  | some cb =>
    match cb.cancelErr with
    | some e => (.error e, emitTo s i .cancel)
    | none => (.ok (), emitTo s i .cancel)

/-- `readable.cancel().catch(NOOP)` — invocation recorded, rejection
swallowed. -/
def cancelConnNoop (i : Nat) : M Unit := fun s =>
  (.ok (), emitTo s i .cancel)

/-- `connection.close()` — invocation recorded, rejection propagated. -/
def closeConn (i : Nat) : M Unit := fun s =>
  match s.conns.get? i with
  | none => (.error .transportError, s)
  | some cb =>
    match cb.closeErr with
    | some e => (.error e, emitTo s i .close)
    | none => (.ok (), emitTo s i .close)

/-! ## Abort signals and `raceSignal` -/

structure Signal where
  aborted : Bool
  reason : AdbError
  deriving DecidableEq

/-- `raceSignal(callback, signal)`, restricted to its deterministic
skeleton: an already-aborted signal throws its reason before the
callback runs; otherwise the callback's outcome is returned. (The
listener add/remove bookkeeping and the mid-flight race are real-time
concurrency and are not represented.) -/
def raceSignal {α : Type} (callback : Unit → Except AdbError α)
    (signal : Option Signal) : Except AdbError α :=
  match signal with
  | none => callback ()
  | some s => if s.aborted then .error s.reason else callback ()

/-! ## `AdbServerClient.connect` -/

/-- The `ServerConnection`-shaped value `connect` returns: the released
buffered reader (remaining server bytes) of connection `idx`. -/
structure ConnStream where
  idx : Nat
  rest : List Nat
  deriving DecidableEq

/-- `AdbServerClient.connect(request, options)` after the connector has
produced a connection: write one request frame (on failure cancel the
reader and close, both unswallowed, then rethrow); then read the ack
frame under `raceSignal` (on failure cancel the buffered reader with the
rejection swallowed, close the connection unswallowed, then rethrow). -/
def connect (request : String) (signal : Option Signal) : M ConnStream := fun s =>
  match dial s with
  | (.error e, s1) => (.error e, s1)
  | (.ok i, s1) =>
    match s1.conns.get? i with
    | none => (.error .transportError, s1)
    | some cb =>
      match writeConn i 0 (writeString request) s1 with
      | (.error e, s2) =>
        match cancelConn i s2 with
        | (.error ce, s3) => (.error ce, s3)
        | (.ok _, s3) =>
          match closeConn i s3 with
          | (.error xe, s4) => (.error xe, s4)
          | (.ok _, s4) => (.error e, s4)
      | (.ok _, s2) =>
        match raceSignal (fun _ => readOkay cb.serverBytes) signal with
        | .ok (_, rest) => (.ok ⟨i, rest⟩, s2)
        | .error e =>
          match cancelConnNoop i s2 with
          | (.error ce, s3) => (.error ce, s3)
          | (.ok _, s3) =>
            match closeConn i s3 with
            | (.error xe, s4) => (.error xe, s4)
            | (.ok _, s4) => (.error e, s4)

/-! ## High-level commands -/

/-- `AdbServerClient.VERSION`. -/
def VERSION : Nat := 41

/-- The reads `getVersion` performs on the post-ack stream: a 4-hex-digit
length, then a hex payload of that length. -/
def parseVersionPayload (bs : List Nat) : Except AdbError Nat :=
  match readExactly 4 bs with
  | .error e => .error e
  | .ok (lenBuf, s1) =>
    match hexToNumber lenBuf with
    | none => .error .decodeError
    | some length =>
      match readExactly length s1 with
      | .error e => .error e
      | .ok (verBuf, _) =>
        match hexToNumber verBuf with
        | none => .error .decodeError
        | some version => .ok version

/-- `AdbServerClient.getVersion`: `connect("host:version")`, read the
version, then the `finally` block closes the writable half and cancels
the reader, swallowing errors. -/
def getVersion : M Nat := fun s =>
  match connect "host:version" none s with
  | (.error e, s1) => (.error e, s1)
  | (.ok cs, s1) =>
    match parseVersionPayload cs.rest with
    | .ok v => (.ok v, emitTo (emitTo s1 cs.idx .closeWritable) cs.idx .cancel)
    | .error e => (.error e, emitTo (emitTo s1 cs.idx .closeWritable) cs.idx .cancel)

/-- `AdbServerClient.validateVersion`. -/
def validateVersion : M Unit := fun s =>
  match getVersion s with
  | (.error e, s1) => (.error e, s1)
  | (.ok v, s1) =>
    if v = VERSION then (.ok (), s1) else (.error (.versionMismatch v VERSION), s1)

/-- `AdbServerClient.getServerFeatures`: one string frame, split on `","`. -/
def getServerFeatures : M (List String) := fun s =>
  match connect "host:host-features" none s with
  | (.error e, s1) => (.error e, s1)
  | (.ok cs, s1) =>
    match readString cs.rest with
    | .ok (response, _) =>
      (.ok (jsSplit ',' response), emitTo (emitTo s1 cs.idx .closeWritable) cs.idx .cancel)
    | .error e => (.error e, emitTo (emitTo s1 cs.idx .closeWritable) cs.idx .cancel)

/-- `AdbServerClient.getDevices`: one string frame, parsed per the
`devices-l` grammar. -/
def getDevices : M (List AdbServerDevice) := fun s =>
  match connect "host:devices-l" none s with
  | (.error e, s1) => (.error e, s1)
  | (.ok cs, s1) =>
    match
      (match readString cs.rest with
       | .error e => .error e
       | .ok (response, _) => parseDevices response :
        Except AdbError (List AdbServerDevice)) with
    | .ok ds => (.ok ds, emitTo (emitTo s1 cs.idx .closeWritable) cs.idx .cancel)
    | .error e => (.error e, emitTo (emitTo s1 cs.idx .closeWritable) cs.idx .cancel)

/-! ## `AdbServerClient.connectDevice` -/

/-- The `AdbServerSocket` the handshake returns. -/
structure SocketResult where
  transportId : Nat
  service : String
  readable : List Nat
  idx : Nat
  deriving DecidableEq

/-- The reads of the `connectDevice` handshake after the service frame is
written: when the transport id is not already known, exactly 8 bytes
decoded as a little-endian u64, then the ack frame. -/
def handshakeReads (knownId : Option Nat) (rest : List Nat) :
    Except AdbError (Nat × List Nat) :=
  match knownId with
  | some t =>
    match readOkay rest with
    | .error e => .error e
    | .ok (_, s2) => .ok (t, s2)
  | none =>
    match readExactly 8 rest with
    | .error e => .error e
    | .ok (array, s1) =>
      match readOkay s1 with
      | .error e => .error e
      | .ok (_, s2) => .ok (uint64LE array, s2)

/-- `AdbServerClient.connectDevice(device, service)`: validate the server
version, compute the switch service from the selector, `connect` it,
write the service frame (failure: cancel and close, unswallowed), then
perform the handshake reads (failure: cancel swallowed, close
unswallowed). -/
def connectDevice (device : AdbServerDeviceSelector) (service : String) :
    M SocketResult := fun s =>
  match validateVersion s with
  | (.error e, s1) => (.error e, s1)
  | (.ok _, s1) =>
    match computeSwitchService device with
    | .error e => (.error e, s1)
    | .ok (switchService, knownId) =>
      match connect switchService none s1 with
      | (.error e, s2) => (.error e, s2)
      | (.ok cs, s2) =>
        match writeConn cs.idx 1 (writeString service) s2 with
        | (.error e, s3) =>
          match cancelConn cs.idx s3 with
          | (.error ce, s4) => (.error ce, s4)
          | (.ok _, s4) =>
            match closeConn cs.idx s4 with
            | (.error xe, s5) => (.error xe, s5)
            | (.ok _, s5) => (.error e, s5)
        | (.ok _, s3) =>
          match handshakeReads knownId cs.rest with
          | .ok (transportId, rest2) => (.ok ⟨transportId, service, rest2, cs.idx⟩, s3)
          | .error e =>
            match cancelConnNoop cs.idx s3 with
            | (.error ce, s4) => (.error ce, s4)
            | (.ok _, s4) =>
              match closeConn cs.idx s4 with
              | (.error xe, s5) => (.error xe, s5)
              | (.ok _, s5) => (.error e, s5)

/-- `AdbServerClient.getDeviceFeatures`: `connectDevice(device,
"host:features")`, read one string frame and split on `","`; the
`finally` block awaits `socket.close()` (unswallowed). -/
def getDeviceFeatures (device : AdbServerDeviceSelector) :
    M (Nat × List String) := fun s =>
  match connectDevice device "host:features" s with
  | (.error e, s1) => (.error e, s1)
  | (.ok socket, s1) =>
    match readString socket.readable with
    | .ok (featuresString, _) =>
      match closeConn socket.idx s1 with
      | (.error e, s2) => (.error e, s2)
      | (.ok _, s2) => (.ok (socket.transportId, jsSplit ',' featuresString), s2)
    | .error e =>
      match closeConn socket.idx s1 with
      | (.error xe, s2) => (.error xe, s2)
      | (.ok _, s2) => (.error e, s2)

/-- `AdbBanner`. -/
structure AdbBanner where
  product : Option String
  model : Option String
  device : Option String
  features : List String
  deriving DecidableEq

/-- `AdbServerTransport` (the fields `createTransport` fills in). -/
structure AdbServerTransport where
  serial : String
  banner : AdbBanner
  transportId : Nat
  deriving DecidableEq

/-- `AdbServerClient.createTransport`: resolve the transport id and
features, list the devices, look the transport id up, and build the
transport; an absent entry leaves the serial empty and the banner bare. -/
def createTransport (device : AdbServerDeviceSelector) : M AdbServerTransport := fun s =>
  match getDeviceFeatures device s with
  | (.error e, s1) => (.error e, s1)
  | (.ok (transportId, features), s1) =>
    match getDevices s1 with
    | (.error e, s2) => (.error e, s2)
    | (.ok devices, s2) =>
      (.ok ⟨((devices.find? fun d => d.transportId = transportId).map fun d => d.serial).getD "",
            ⟨(devices.find? fun d => d.transportId = transportId).bind fun d => d.product,
             (devices.find? fun d => d.transportId = transportId).bind fun d => d.model,
             (devices.find? fun d => d.transportId = transportId).bind fun d => d.device,
             features⟩,
            transportId⟩,
       s2)

/-! ## Concrete scripted connections used by the theorems -/

/-- A well-behaved connection whose server sends `bs`. -/
def mkConn (bs : List Nat) : ConnBehavior := ⟨bs, none, none, none, none⟩

/-- A connection answering `host:version` with `OKAY`, the length frame
`"0004"` and the hex payload `"0029"` (= 41). -/
def goodVersionCb : ConnBehavior :=
  mkConn (okayBytes ++ encodeUtf8 "0004" ++ encodeUtf8 "0029")

/-- The trace `getVersion` leaves on `goodVersionCb` as connection 0. -/
def versionEvs : List (Nat × Ev) :=
  [(0, .write (writeString "host:version")), (0, .closeWritable), (0, .cancel)]

/-- A connection answering a one-shot string command with `OKAY` followed
by one string frame containing `response`. -/
def replyCb (response : String) : ConnBehavior :=
  mkConn (okayBytes ++ writeString response)

/-- The switch connection of a `connectDevice` handshake that must
resolve the transport id: `OKAY`, 8 transport-id bytes, `OKAY`, then the
service's payload. -/
def tportCb (idBytes : List Nat) (rest : List Nat) : ConnBehavior :=
  mkConn (okayBytes ++ idBytes ++ okayBytes ++ rest)

/-- The switch connection of a `connectDevice` handshake with a pre-known
transport id: `OKAY`, `OKAY`, then the service's payload. -/
def tportKnownCb (rest : List Nat) : ConnBehavior :=
  mkConn (okayBytes ++ okayBytes ++ rest)

/-- The `devices-l` payload of the claimed scenario, with tab separators
as written in the claim. -/
def tabPayload : String :=
  "emulator-5554\tdevice product:sdk_phone model:Phone device:generic transport_id:2\noffline-1\toffline\n"

/-- The same payload with the tabs replaced by spaces. -/
def spacePayload : String :=
  "emulator-5554 device product:sdk_phone model:Phone device:generic transport_id:2\noffline-1 offline\n"

/-- The single entry the claimed scenario expects. -/
def claimedEntry : AdbServerDevice :=
  ⟨"emulator-5554", some "sdk_phone", some "Phone", some "generic", 2⟩

/-! ## Codec lemmas -/

theorem hexDigitValue_hexDigitChar (d : Nat) (h : d < 16) :
    hexDigitValue (hexDigitChar d) = some d := by
  unfold hexDigitValue hexDigitChar
  by_cases h10 : d < 10
  · rw [if_pos h10, if_pos (by omega)]
    exact congrArg some (by omega)
  · rw [if_neg h10, if_neg (by omega), if_pos (by omega)]
    exact congrArg some (by omega)

theorem hexToNumber_numberToHex (n : Nat) (h : n ≤ 0xFFFF) :
    hexToNumber (numberToHex n) = some n := by
  have m1 : n / 4096 % 16 < 16 := Nat.mod_lt _ (by norm_num)
  have m2 : n / 256 % 16 < 16 := Nat.mod_lt _ (by norm_num)
  have m3 : n / 16 % 16 < 16 := Nat.mod_lt _ (by norm_num)
  have m4 : n % 16 < 16 := Nat.mod_lt _ (by norm_num)
  unfold hexToNumber numberToHex
  simp only [List.foldl_cons, List.foldl_nil, hexDigitValue_hexDigitChar _ m1,
    hexDigitValue_hexDigitChar _ m2, hexDigitValue_hexDigitChar _ m3,
    hexDigitValue_hexDigitChar _ m4, Option.some_bind, Option.map_some']
  show some ((((0 * 16 + n / 4096 % 16) * 16 + n / 256 % 16) * 16 + n / 16 % 16) * 16 + n % 16)
      = some n
  exact congrArg some (by omega)

theorem readExactly_append (bs rest : List Nat) :
    readExactly bs.length (bs ++ rest) = .ok (bs, rest) := by
  induction bs with
  | nil => rfl
  | cons b t ih => simp [readExactly, ih, Except.map]

theorem readExactly_of_length (n : Nat) (bs rest : List Nat) (h : bs.length = n) :
    readExactly n (bs ++ rest) = .ok (bs, rest) := h ▸ readExactly_append bs rest

theorem decodeOne_rest_le (b : Nat) (bs : List Nat) :
    (decodeOne b bs).2.length ≤ bs.length := by
  rw [decodeOne.eq_def]
  repeat' split
  all_goals simp_arith [List.length_drop]

theorem decodeCharsF_eq_of_le (f1 : Nat) :
    ∀ (f2 : Nat) (bs : List Nat), bs.length ≤ f1 → bs.length ≤ f2 →
      decodeCharsF f1 bs = decodeCharsF f2 bs := by
  induction f1 with
  | zero =>
    intro f2 bs h1 _
    have : bs = [] := List.eq_nil_of_length_eq_zero (Nat.le_zero.mp h1)
    subst this
    cases f2 <;> rfl
  | succ f1 ih =>
    intro f2 bs h1 h2
    cases bs with
    | nil => cases f2 <;> rfl
    | cons b t =>
      cases f2 with
      | zero => exact absurd h2 (by simp)
      | succ f2 =>
        simp only [decodeCharsF]
        rcases hdo : decodeOne b t with ⟨c, rest⟩
        have hr : rest.length ≤ t.length := by
          have := decodeOne_rest_le b t
          rw [hdo] at this
          exact this
        simp only [List.length_cons, Nat.succ_le_succ_iff] at h1 h2
        exact congrArg (c :: ·) (ih f2 rest (hr.trans h1) (hr.trans h2))

theorem decodeChars_cons (b : Nat) (bs : List Nat) :
    decodeChars (b :: bs) =
      (decodeOne b bs).1 :: decodeChars (decodeOne b bs).2 := by
  show decodeCharsF (b :: bs).length (b :: bs) = _
  simp only [List.length_cons, decodeCharsF]
  rcases hdo : decodeOne b bs with ⟨c, rest⟩
  have hr : rest.length ≤ bs.length := by
    have := decodeOne_rest_le b bs
    rw [hdo] at this
    exact this
  exact congrArg (c :: ·) (decodeCharsF_eq_of_le bs.length rest.length rest hr le_rfl)

theorem charToNat_ofNat_valid (n : Nat) (h : Nat.isValidChar n) :
    (Char.ofNat n).toNat = n := by
  simp [Char.ofNat, h, Char.ofNatAux, Char.toNat, UInt32.toNat, BitVec.toNat_ofNatLt]

theorem decodeChars_encodeChar (c : Char) (rest : List Nat) :
    decodeChars (utf8EncodeChar c ++ rest) = c :: decodeChars rest := by
  have hv : Nat.isValidChar c.toNat := c.valid
  have hofn : Char.ofNat c.toNat = c := Char.ofNat_toNat c
  by_cases h1 : c.toNat < 0x80
  · have henc : utf8EncodeChar c = [c.toNat] := by
      unfold utf8EncodeChar
      rw [if_pos h1]
    rw [henc, List.cons_append, List.nil_append, decodeChars_cons]
    have hdo : decodeOne c.toNat rest = (Char.ofNat c.toNat, rest) := by
      rw [decodeOne.eq_def, if_pos h1]
    rw [hdo, hofn]
  · by_cases h2 : c.toNat < 0x800
    · have henc : utf8EncodeChar c = [0xC0 + c.toNat / 64, 0x80 + c.toNat % 64] := by
        unfold utf8EncodeChar
        rw [if_neg h1, if_pos h2]
      rw [henc, List.cons_append, List.cons_append, List.nil_append, decodeChars_cons]
      have hdo : decodeOne (0xC0 + c.toNat / 64) ((0x80 + c.toNat % 64) :: rest)
          = (Char.ofNat ((0xC0 + c.toNat / 64 - 0xC0) * 64 + (0x80 + c.toNat % 64 - 0x80)),
             rest) := by
        rw [decodeOne.eq_def, if_neg (by omega), if_neg (by omega), if_pos (by omega)]
        simp only []
        rw [if_pos (by omega)]
      rw [hdo]
      have harg : (0xC0 + c.toNat / 64 - 0xC0) * 64 + (0x80 + c.toNat % 64 - 0x80)
          = c.toNat := by
        omega
      rw [harg, hofn]
    · by_cases h3 : c.toNat < 0x10000
      · have henc : utf8EncodeChar c
            = [0xE0 + c.toNat / 4096, 0x80 + c.toNat / 64 % 64, 0x80 + c.toNat % 64] := by
          unfold utf8EncodeChar
          rw [if_neg h1, if_neg h2, if_pos h3]
        have hns : ¬ (0xD800 ≤ c.toNat ∧ c.toNat < 0xE000) := by
          rcases hv with h | h
          · omega
          · omega
        rw [henc, List.cons_append, List.cons_append, List.cons_append, List.nil_append,
          decodeChars_cons]
        have hdo : decodeOne (0xE0 + c.toNat / 4096)
            ((0x80 + c.toNat / 64 % 64) :: (0x80 + c.toNat % 64) :: rest)
            = (Char.ofNat ((0xE0 + c.toNat / 4096 - 0xE0) * 4096
                + (0x80 + c.toNat / 64 % 64 - 0x80) * 64 + (0x80 + c.toNat % 64 - 0x80)),
               rest) := by
          rw [decodeOne.eq_def, if_neg (by omega), if_neg (by omega), if_neg (by omega),
            if_pos (by omega)]
          simp only []
          rw [if_pos (by omega), if_neg (by omega)]
        rw [hdo]
        have harg : (0xE0 + c.toNat / 4096 - 0xE0) * 4096
            + (0x80 + c.toNat / 64 % 64 - 0x80) * 64 + (0x80 + c.toNat % 64 - 0x80)
            = c.toNat := by
          omega
        rw [harg, hofn]
      · have h4 : c.toNat < 0x110000 := by
          rcases hv with h | h
          · omega
          · omega
        have henc : utf8EncodeChar c
            = [0xF0 + c.toNat / 262144, 0x80 + c.toNat / 4096 % 64,
               0x80 + c.toNat / 64 % 64, 0x80 + c.toNat % 64] := by
          unfold utf8EncodeChar
          rw [if_neg h1, if_neg h2, if_neg h3]
        rw [henc, List.cons_append, List.cons_append, List.cons_append, List.cons_append,
          List.nil_append, decodeChars_cons]
        have hdo : decodeOne (0xF0 + c.toNat / 262144)
            ((0x80 + c.toNat / 4096 % 64) :: (0x80 + c.toNat / 64 % 64)
              :: (0x80 + c.toNat % 64) :: rest)
            = (Char.ofNat ((0xF0 + c.toNat / 262144 - 0xF0) * 262144
                + (0x80 + c.toNat / 4096 % 64 - 0x80) * 4096
                + (0x80 + c.toNat / 64 % 64 - 0x80) * 64 + (0x80 + c.toNat % 64 - 0x80)),
               rest) := by
          rw [decodeOne.eq_def, if_neg (by omega), if_neg (by omega), if_neg (by omega),
            if_neg (by omega), if_pos (by omega)]
          simp only []
          rw [if_pos (by omega), if_neg (by omega)]
        rw [hdo]
        have harg : (0xF0 + c.toNat / 262144 - 0xF0) * 262144
            + (0x80 + c.toNat / 4096 % 64 - 0x80) * 4096
            + (0x80 + c.toNat / 64 % 64 - 0x80) * 64 + (0x80 + c.toNat % 64 - 0x80)
            = c.toNat := by
          omega
        rw [harg, hofn]

theorem decodeChars_encodeChars (l : List Char) : decodeChars (encodeChars l) = l := by
  induction l with
  | nil => rfl
  | cons c cs ih => rw [encodeChars, decodeChars_encodeChar, ih]

theorem decodeUtf8_encodeUtf8 (s : String) : decodeUtf8 (encodeUtf8 s) = s := by
  show String.mk (decodeChars (encodeChars s.data)) = s
  rw [decodeChars_encodeChars]

theorem toNat_ofNat_ge (v : Nat) (hv : Nat.isValidChar v) (h8 : 0x80 ≤ v) :
    0x80 ≤ (Char.ofNat v).toNat := by
  rw [charToNat_ofNat_valid v hv]
  exact h8

set_option maxRecDepth 8000 in
theorem decodeOne_fst_toNat_ge (b : Nat) (bs : List Nat) (hb : ¬ b < 0x80) :
    0x80 ≤ (decodeOne b bs).1.toNat := by
  rw [decodeOne.eq_def, if_neg hb]
  repeat' split
  all_goals exact toNat_ofNat_ge _ (by unfold Nat.isValidChar; omega) (by omega)

theorem decodeOne_ascii (b : Nat) (bs : List Nat)
    (h : (decodeOne b bs).1.toNat < 0x80) :
    b < 0x80 ∧ decodeOne b bs = (Char.ofNat b, bs) := by
  by_cases hb : b < 0x80
  · exact ⟨hb, by rw [decodeOne.eq_def, if_pos hb]⟩
  · exact absurd h (Nat.not_lt.mpr (decodeOne_fst_toNat_ge b bs hb))

theorem decodeChars_cons_ascii (b : Nat) (t : List Nat) (c : Char) (cs : List Char)
    (h : decodeChars (b :: t) = c :: cs) (hc : c.toNat < 0x80) :
    b = c.toNat ∧ decodeChars t = cs := by
  rw [decodeChars_cons] at h
  injection h with h1 h2
  obtain ⟨hb, hdo⟩ := decodeOne_ascii b t (by rw [h1]; exact hc)
  rw [hdo] at h1 h2
  have hbv : Nat.isValidChar b := Or.inl (by omega)
  have hcb : c.toNat = b := by
    rw [← h1]
    exact charToNat_ofNat_valid b hbv
  exact ⟨hcb.symm, h2⟩

theorem utf8EncodeChar_ne_nil (c : Char) : utf8EncodeChar c ≠ [] := by
  unfold utf8EncodeChar
  by_cases h1 : c.toNat < 0x80
  · rw [if_pos h1]; simp
  · rw [if_neg h1]
    by_cases h2 : c.toNat < 0x800
    · rw [if_pos h2]; simp
    · rw [if_neg h2]
      by_cases h3 : c.toNat < 0x10000
      · rw [if_pos h3]; simp
      · rw [if_neg h3]; simp

theorem encodeChars_eq_nil (l : List Char) (h : encodeChars l = []) : l = [] := by
  cases l with
  | nil => rfl
  | cons c cs =>
    rw [encodeChars] at h
    exact absurd (List.append_eq_nil.mp h).1 (utf8EncodeChar_ne_nil c)

theorem numberToHex_length (n : Nat) : (numberToHex n).length = 4 := rfl

theorem decodeUtf8_eq_okay (bs : List Nat) (h4 : bs.length = 4) :
    decodeUtf8 bs = "OKAY" ↔ bs = okayBytes := by
  constructor
  · intro h
    rcases bs with _ | ⟨a, _ | ⟨b, _ | ⟨c, _ | ⟨d, rest⟩⟩⟩⟩ <;> simp at h4
    subst h4
    have hl : decodeChars [a, b, c, d] = ['O', 'K', 'A', 'Y'] := congrArg String.data h
    obtain ⟨ha, hl⟩ := decodeChars_cons_ascii a _ 'O' _ hl (by decide)
    obtain ⟨hb, hl⟩ := decodeChars_cons_ascii b _ 'K' _ hl (by decide)
    obtain ⟨hc, hl⟩ := decodeChars_cons_ascii c _ 'A' _ hl (by decide)
    obtain ⟨hd, hl⟩ := decodeChars_cons_ascii d _ 'Y' _ hl (by decide)
    subst ha hb hc hd
    decide
  · intro h
    subst h
    decide

theorem decodeUtf8_eq_fail (bs : List Nat) (h4 : bs.length = 4) :
    decodeUtf8 bs = "FAIL" ↔ bs = failBytes := by
  constructor
  · intro h
    rcases bs with _ | ⟨a, _ | ⟨b, _ | ⟨c, _ | ⟨d, rest⟩⟩⟩⟩ <;> simp at h4
    subst h4
    have hl : decodeChars [a, b, c, d] = ['F', 'A', 'I', 'L'] := congrArg String.data h
    obtain ⟨ha, hl⟩ := decodeChars_cons_ascii a _ 'F' _ hl (by decide)
    obtain ⟨hb, hl⟩ := decodeChars_cons_ascii b _ 'A' _ hl (by decide)
    obtain ⟨hc, hl⟩ := decodeChars_cons_ascii c _ 'I' _ hl (by decide)
    obtain ⟨hd, hl⟩ := decodeChars_cons_ascii d _ 'L' _ hl (by decide)
    subst ha hb hc hd
    decide
  · intro h
    subst h
    decide

theorem readOkay_eq (bs rest : List Nat) (h4 : bs.length = 4) :
    readOkay (bs ++ rest) =
      if decodeUtf8 bs = "OKAY" then .ok ((), rest)
      else if decodeUtf8 bs = "FAIL" then
        match readString rest with
        | .error e => .error e
        | .ok (reason, _) => .error (.protocolFailure reason)
      else .error (.unexpectedResponse (decodeUtf8 bs)) := by
  unfold readOkay
  rw [readExactly_of_length 4 bs rest h4]

theorem readString_writeString (s : String) (rest : List Nat)
    (h : (encodeUtf8 s).length ≤ 0xFFFF) :
    readString (writeString s ++ rest) = .ok (s, rest) := by
  unfold writeString readString
  rw [List.append_assoc, readExactly_of_length 4 _ _ (numberToHex_length _)]
  simp only [hexToNumber_numberToHex _ h]
  by_cases h0 : (encodeUtf8 s).length = 0
  · rw [if_pos h0]
    have hnil : encodeUtf8 s = [] := List.eq_nil_of_length_eq_zero h0
    have hd : s.data = [] := encodeChars_eq_nil s.data hnil
    have hs : s = "" := by
      cases s
      simp only at hd
      rw [hd]
    rw [hnil, List.nil_append, hs]
    rfl
  · rw [if_neg h0, readExactly_append]
    simp only [decodeUtf8_encodeUtf8]

theorem readString_zeroLen (rest : List Nat) :
    readString (numberToHex 0 ++ rest) = .ok ("", rest) := by
  unfold readString
  rw [readExactly_of_length 4 _ _ (numberToHex_length _)]
  simp only [hexToNumber_numberToHex 0 (by norm_num)]
  rfl

/-- C6: for every UTF-8 string whose encoded byte length is at most
`0xFFFF`, writing it with `writeString` and reading it back with
`readString` yields the same string with the rest of the stream
untouched, and a zero length prefix decodes to the empty string. -/
theorem claim_C6_string_frame_roundtrip :
    (∀ (s : String) (rest : List Nat), (encodeUtf8 s).length ≤ 0xFFFF →
        readString (writeString s ++ rest) = .ok (s, rest))
    ∧ (∀ rest : List Nat, readString (numberToHex 0 ++ rest) = .ok ("", rest)) :=
  ⟨readString_writeString, readString_zeroLen⟩

/-- Witness for C6 at concrete inputs. -/
theorem claim_C6_string_frame_roundtrip_witness :
    readString (writeString "shell:ls" ++ [1, 2]) = .ok ("shell:ls", [1, 2])
    ∧ readString (numberToHex 0 ++ [3]) = .ok ("", [3]) :=
  ⟨claim_C6_string_frame_roundtrip.1 "shell:ls" [1, 2] (by decide),
   claim_C6_string_frame_roundtrip.2 [3]⟩

/-- C7: `readOkay` reads exactly 4 bytes; it succeeds iff they are
`"OKAY"` (returning the remaining stream untouched); on `"FAIL"` it reads
one string frame and fails with it as the reason (a failing frame read
propagates); on any other 4-byte value it fails with an
unexpected-response error whose result does not depend on the bytes that
follow (no further bytes are read). -/
theorem claim_C7_readOkay_contract :
    (∀ bs rest : List Nat, bs.length = 4 →
        ((∃ r, readOkay (bs ++ rest) = .ok r) ↔ bs = okayBytes))
    ∧ (∀ rest : List Nat, readOkay (okayBytes ++ rest) = .ok ((), rest))
    ∧ (∀ rest : List Nat, readOkay (failBytes ++ rest) =
        match readString rest with
        | .error e => .error e
        | .ok (reason, _) => .error (.protocolFailure reason))
    ∧ (∀ bs rest : List Nat, bs.length = 4 → bs ≠ okayBytes → bs ≠ failBytes →
        readOkay (bs ++ rest) = .error (.unexpectedResponse (decodeUtf8 bs))) := by
  refine ⟨?_, ?_, ?_, ?_⟩
  · intro bs rest h4
    rw [readOkay_eq bs rest h4]
    constructor
    · rintro ⟨r, hr⟩
      by_cases hok : decodeUtf8 bs = "OKAY"
      · exact (decodeUtf8_eq_okay bs h4).mp hok
      · rw [if_neg hok] at hr
        by_cases hfail : decodeUtf8 bs = "FAIL"
        · rw [if_pos hfail] at hr
          cases hrs : readString rest with
          | error e => rw [hrs] at hr; simp at hr
          | ok p =>
            cases p
            rw [hrs] at hr
            simp at hr
        · rw [if_neg hfail] at hr
          simp at hr
    · intro hb
      rw [if_pos ((decodeUtf8_eq_okay bs h4).mpr hb)]
      exact ⟨((), rest), rfl⟩
  · intro rest
    rw [readOkay_eq okayBytes rest rfl, if_pos (by decide)]
  · intro rest
    rw [readOkay_eq failBytes rest rfl, if_neg (by decide), if_pos (by decide)]
  · intro bs rest h4 hno hnf
    rw [readOkay_eq bs rest h4,
      if_neg (fun hx => hno ((decodeUtf8_eq_okay bs h4).mp hx)),
      if_neg (fun hx => hnf ((decodeUtf8_eq_fail bs h4).mp hx))]

/-- Witness for C7 at concrete inputs. -/
theorem claim_C7_readOkay_contract_witness :
    readOkay (okayBytes ++ [5]) = .ok ((), [5])
    ∧ readOkay (failBytes ++ writeString "nope") = .error (.protocolFailure "nope")
    ∧ readOkay ([1, 2, 3, 4] ++ [9])
        = .error (.unexpectedResponse (decodeUtf8 [1, 2, 3, 4])) := by
  refine ⟨claim_C7_readOkay_contract.2.1 [5], ?_, ?_⟩
  · rw [claim_C7_readOkay_contract.2.2.1 (writeString "nope"),
      show writeString "nope" = writeString "nope" ++ [] from (List.append_nil _).symm,
      readString_writeString "nope" [] (by decide)]
  · exact claim_C7_readOkay_contract.2.2.2 [1, 2, 3, 4] [9] (by decide) (by decide)
      (by decide)

/-! ## Splitting lemmas -/

theorem splitChar_ne_nil (sep : Char) (l : List Char) : splitChar sep l ≠ [] := by
  induction l with
  | nil => simp [splitChar]
  | cons c cs ih =>
    rw [splitChar]
    split
    · simp
    · split
      · simp
      · simp

theorem splitChar_length (sep : Char) (l : List Char) :
    (splitChar sep l).length = l.count sep + 1 := by
  induction l with
  | nil => simp [splitChar]
  | cons c cs ih =>
    rw [splitChar]
    by_cases h : c = sep
    · rw [if_pos h]
      simp [List.count_cons, h, ih]
    · rw [if_neg h]
      cases hs : splitChar sep cs with
      | nil => exact absurd hs (splitChar_ne_nil sep cs)
      | cons r rs =>
        rw [hs] at ih
        simp only [List.length_cons] at ih ⊢
        simp [List.count_cons, h, ih]

theorem jsSplit_length (sep : Char) (s : String) :
    (jsSplit sep s).length = s.data.count sep + 1 := by
  unfold jsSplit
  rw [List.length_map, splitChar_length]

/-! ## The devices-l scenario (C2) -/

/-- C2 counterexample: the source splits lines on `" "` (a single space),
so a tab is not a token separator: on the claimed tab-separated payload
`getDevices` returns no entry at all, not the claimed one. -/
theorem claim_C2_counterexample :
    (getDevices (initS [replyCb tabPayload])).1 = .ok []
    ∧ ([] : List AdbServerDevice) ≠ [claimedEntry] :=
  ⟨rfl, by decide⟩

/-- C2 amended: each non-empty line is split on single spaces with empty
tokens filtered out; tabs are not separators (a tab-separated line's
second token is not `"device"`, so the line is skipped). On the payload
with spaces in place of the tabs, `getDevices` returns exactly the one
claimed entry. -/
theorem claim_C2_amended :
    (getDevices (initS [replyCb spacePayload])).1 = .ok [claimedEntry]
    ∧ (getDevices (initS [replyCb tabPayload])).1 = .ok [] :=
  ⟨rfl, rfl⟩

/-! ## Running the scripted client -/

theorem readOkay_okay (rest : List Nat) : readOkay (okayBytes ++ rest) = .ok ((), rest) := by
  rw [readOkay_eq okayBytes rest rfl, if_pos (by decide)]

/-- A well-behaved connection whose server acks and then sends `rest`:
`connect` returns the released stream and has written one request frame. -/
theorem connect_ok_run (request : String) (conns : List ConnBehavior) (used : Nat)
    (tr : List (Nat × Ev)) (cb : ConnBehavior) (rest : List Nat)
    (hget : conns.get? used = some cb)
    (hw : cb.writeErr0 = none)
    (hsb : cb.serverBytes = okayBytes ++ rest) :
    connect request none ⟨conns, used, tr⟩ =
      (.ok ⟨used, rest⟩,
       ⟨conns, used + 1, tr ++ [(used, .write (writeString request))]⟩) := by
  unfold connect dial writeConn raceSignal emitTo
  simp only [hget, hw, hsb, readOkay_okay, if_true, ite_true]

theorem getServerFeatures_run (resp : String) (h : (encodeUtf8 resp).length ≤ 0xFFFF) :
    getServerFeatures (initS [replyCb resp]) =
      (.ok (jsSplit ',' resp),
       ⟨[replyCb resp], 1,
        [(0, .write (writeString "host:host-features")), (0, .closeWritable),
         (0, .cancel)]⟩) := by
  unfold getServerFeatures initS
  rw [connect_ok_run "host:host-features" [replyCb resp] 0 [] (replyCb resp)
      (writeString resp) rfl rfl rfl]
  simp only []
  rw [show writeString resp = writeString resp ++ [] from (List.append_nil _).symm,
    readString_writeString resp [] h]
  rfl

/-- C10: a features response splits on `","` into one more token than it
has commas; in particular the empty response yields the one-element list
containing the empty string (never the empty list), both for
`getServerFeatures` and for the features list of `getDeviceFeatures`. -/
theorem claim_C10_features_split :
    ((getServerFeatures (initS [replyCb ""])).1 = .ok [""])
    ∧ (∀ resp : String, (encodeUtf8 resp).length ≤ 0xFFFF →
        (getServerFeatures (initS [replyCb resp])).1 = .ok (jsSplit ',' resp)
        ∧ (jsSplit ',' resp).length = resp.data.count ',' + 1)
    ∧ ((getDeviceFeatures none
          (initS [goodVersionCb, tportCb [1, 0, 0, 0, 0, 0, 0, 0] (writeString "")])).1
        = .ok (1, [""])) := by
  refine ⟨rfl, ?_, rfl⟩
  intro resp h
  rw [getServerFeatures_run resp h]
  exact ⟨rfl, jsSplit_length ',' resp⟩

/-- Witness for C10 at a concrete response. -/
theorem claim_C10_features_split_witness :
    (getServerFeatures (initS [replyCb "cmd,shell_v2"])).1 = .ok (jsSplit ',' "cmd,shell_v2")
    ∧ (jsSplit ',' "cmd,shell_v2").length = ("cmd,shell_v2").data.count ',' + 1 :=
  claim_C10_features_split.2.1 "cmd,shell_v2" (by decide)


/-! ## devices-l parser lemmas (C8) -/

theorem parseToken_not_tid (acc : LineAcc) (tok : String)
    (hk : (jsSplit ':' tok).get? 0 ≠ some "transport_id") :
    ∃ acc1, parseToken acc tok = .ok acc1 ∧ acc1.transportId = acc.transportId := by
  unfold parseToken
  cases hks : jsSplit ':' tok with
  | nil => exact ⟨acc, rfl, rfl⟩
  | cons key restP =>
    rw [hks] at hk
    simp only []
    have hkey : key ≠ "transport_id" := by simpa using hk
    by_cases h1 : key = "product"
    · rw [if_pos h1]; exact ⟨_, rfl, rfl⟩
    · rw [if_neg h1]
      by_cases h2 : key = "model"
      · rw [if_pos h2]; exact ⟨_, rfl, rfl⟩
      · rw [if_neg h2]
        by_cases h3 : key = "device"
        · rw [if_pos h3]; exact ⟨_, rfl, rfl⟩
        · rw [if_neg h3, if_neg hkey]
          exact ⟨acc, rfl, rfl⟩

theorem parseTokens_no_tid (toks : List String) :
    ∀ acc : LineAcc,
      (∀ tok ∈ toks, (jsSplit ':' tok).get? 0 ≠ some "transport_id") →
      ∃ acc1, parseTokens toks acc = .ok acc1 ∧ acc1.transportId = acc.transportId := by
  induction toks with
  | nil => exact fun acc _ => ⟨acc, rfl, rfl⟩
  | cons tok rest ih =>
    intro acc hall
    obtain ⟨acc1, hpt, htid⟩ :=
      parseToken_not_tid acc tok (hall tok (List.mem_cons_self tok rest))
    obtain ⟨acc2, hpts, htid2⟩ :=
      ih acc1 fun t ht => hall t (List.mem_cons_of_mem tok ht)
    refine ⟨acc2, ?_, htid2.trans htid⟩
    simp only [parseTokens, hpt, hpts]

theorem parseLine_missing_tid (line : String)
    (hg : (lineTokens line).get? 1 = some "device")
    (hnt : ∀ tok ∈ (lineTokens line).drop 2,
      (jsSplit ':' tok).get? 0 ≠ some "transport_id") :
    parseLine line = .error (.missingTransportId (((lineTokens line).get? 0).getD "")) := by
  unfold parseLine
  rw [if_pos hg]
  obtain ⟨acc1, hpt, htid⟩ :=
    parseTokens_no_tid ((lineTokens line).drop 2) ⟨none, none, none, none⟩ hnt
  rw [hpt]
  simp only []
  rw [htid]

theorem parseLine_ok_inv (line : String) (d : AdbServerDevice)
    (h : parseLine line = .ok (some d)) :
    (lineTokens line).get? 1 = some "device"
    ∧ (lineTokens line).get? 0 = some d.serial
    ∧ d.transportId ≠ 0 := by
  unfold parseLine at h
  by_cases hg : (lineTokens line).get? 1 = some "device"
  case neg =>
    rw [if_neg hg] at h
    simp at h
  case pos =>
    rw [if_pos hg] at h
    refine ⟨hg, ?_⟩
    cases hpt : parseTokens ((lineTokens line).drop 2) ⟨none, none, none, none⟩ with
    | error e => rw [hpt] at h; simp only [] at h; simp at h
    | ok acc =>
      rw [hpt] at h
      simp only [] at h
      cases htid : acc.transportId with
      | none => rw [htid] at h; simp at h
      | some n =>
        cases n with
        | zero => rw [htid] at h; simp at h
        | succ m =>
          rw [htid] at h
          simp only [Except.ok.injEq, Option.some.injEq] at h
          have h0 : 1 < (lineTokens line).length := by
            rcases List.get?_eq_some.mp hg with ⟨hlt, _⟩
            exact hlt
          have h0' : 0 < (lineTokens line).length := by omega
          constructor
          · rw [← h]
            simp [List.getElem?_eq_getElem h0']
          · rw [← h]
            simp



theorem parseLines_ok_inv (lines : List String) :
    ∀ acc ds : List AdbServerDevice, parseLines lines acc = .ok ds →
      ∀ d ∈ ds, d ∈ acc ∨ ∃ line ∈ lines, parseLine line = .ok (some d) := by
  induction lines with
  | nil =>
    intro acc ds h d hd
    rw [parseLines] at h
    injection h with h
    subst h
    exact .inl hd
  | cons line rest ih =>
    intro acc ds h d hd
    rw [parseLines] at h
    by_cases hl : line = ""
    · rw [if_pos hl] at h
      rcases ih acc ds h d hd with hmem | ⟨l, hlm, hpl⟩
      · exact .inl hmem
      · exact .inr ⟨l, List.mem_cons_of_mem _ hlm, hpl⟩
    · rw [if_neg hl] at h
      cases hpl : parseLine line with
      | error e =>
        rw [hpl] at h
        simp at h
      | ok o =>
        rw [hpl] at h
        cases o with
        | none =>
          rcases ih acc ds h d hd with hmem | ⟨l, hlm, hpl2⟩
          · exact .inl hmem
          · exact .inr ⟨l, List.mem_cons_of_mem _ hlm, hpl2⟩
        | some d0 =>
          rcases ih (acc ++ [d0]) ds h d hd with hmem | ⟨l, hlm, hpl2⟩
          · rcases List.mem_append.mp hmem with hmem2 | hmem2
            · exact .inl hmem2
            · have hdd0 : d = d0 := by simpa using hmem2
              subst hdd0
              exact .inr ⟨line, List.mem_cons_self _ _, hpl⟩
          · exact .inr ⟨l, List.mem_cons_of_mem _ hlm, hpl2⟩

theorem parseLines_not_ok (line : String) (hl : line ≠ "") (e : AdbError)
    (herr : parseLine line = .error e) :
    ∀ lines : List String, line ∈ lines →
      ∀ acc ds, parseLines lines acc ≠ .ok ds := by
  intro lines
  induction lines with
  | nil => intro hmem; cases hmem
  | cons l rest ih =>
    intro hmem acc ds h
    rw [parseLines] at h
    rcases List.mem_cons.mp hmem with rfl | hmem2
    · rw [if_neg hl, herr] at h
      simp at h
    · by_cases h0 : l = ""
      · rw [if_pos h0] at h
        exact ih hmem2 acc ds h
      · rw [if_neg h0] at h
        cases hpl : parseLine l with
        | error e2 =>
          rw [hpl] at h
          simp at h
        | ok o =>
          rw [hpl] at h
          cases o with
          | none => exact ih hmem2 acc ds h
          | some d0 => exact ih hmem2 (acc ++ [d0]) ds h

theorem getDevices_run (resp : String) (h : (encodeUtf8 resp).length ≤ 0xFFFF) :
    (getDevices (initS [replyCb resp])).1 = parseDevices resp := by
  unfold getDevices initS
  rw [connect_ok_run "host:devices-l" [replyCb resp] 0 [] (replyCb resp)
      (writeString resp) rfl rfl rfl]
  simp only []
  rw [show writeString resp = writeString resp ++ [] from (List.append_nil _).symm,
    readString_writeString resp [] h]
  simp only []
  cases parseDevices resp <;> rfl



/-- C8 -/
theorem claim_C8_devices_invariants :
    (∀ resp : String, (encodeUtf8 resp).length ≤ 0xFFFF →
        (getDevices (initS [replyCb resp])).1 = parseDevices resp)
    ∧ (∀ (resp : String) (ds : List AdbServerDevice), parseDevices resp = .ok ds →
        ∀ d ∈ ds, d.transportId ≠ 0
          ∧ ∃ line ∈ jsSplit '\n' resp,
              (lineTokens line).get? 0 = some d.serial
              ∧ (lineTokens line).get? 1 = some "device")
    ∧ (∀ line : String, (lineTokens line).get? 1 = some "device" →
        (∀ tok ∈ (lineTokens line).drop 2,
            (jsSplit ':' tok).get? 0 ≠ some "transport_id") →
        parseLine line
          = .error (.missingTransportId (((lineTokens line).get? 0).getD "")))
    ∧ (∀ (resp line : String), line ∈ jsSplit '\n' resp → line ≠ "" →
        (lineTokens line).get? 1 = some "device" →
        (∀ tok ∈ (lineTokens line).drop 2,
            (jsSplit ':' tok).get? 0 ≠ some "transport_id") →
        ∀ ds, parseDevices resp ≠ .ok ds) := by
  refine ⟨getDevices_run, ?_, parseLine_missing_tid, ?_⟩
  · intro resp ds h d hd
    rcases parseLines_ok_inv (jsSplit '\n' resp) [] ds h d hd with hmem | ⟨l, hlm, hpl⟩
    · cases hmem
    · obtain ⟨hst, hser, htid⟩ := parseLine_ok_inv l d hpl
      exact ⟨htid, l, hlm, hser, hst⟩
  · intro resp line hmem hl hst hnt ds
    exact parseLines_not_ok line hl _ (parseLine_missing_tid line hst hnt)
      (jsSplit '\n' resp) hmem [] ds

/-- Witness for C8 at concrete inputs. -/
theorem claim_C8_devices_invariants_witness :
    (getDevices (initS [replyCb spacePayload])).1 = parseDevices spacePayload
    ∧ (claimedEntry.transportId ≠ 0
        ∧ ∃ line ∈ jsSplit '\n' spacePayload,
            (lineTokens line).get? 0 = some claimedEntry.serial
            ∧ (lineTokens line).get? 1 = some "device")
    ∧ parseLine "dead device"
        = .error (.missingTransportId (((lineTokens "dead device").get? 0).getD ""))
    ∧ ∀ ds, parseDevices "dead device" ≠ .ok ds := by
  refine ⟨claim_C8_devices_invariants.1 spacePayload (by decide),
    claim_C8_devices_invariants.2.1 spacePayload [claimedEntry] rfl claimedEntry
      (by simp),
    claim_C8_devices_invariants.2.2.1 "dead device" (by decide) (by decide),
    fun ds => claim_C8_devices_invariants.2.2.2 "dead device" "dead device"
      (by decide) (by decide) (by decide) (by decide) ds⟩


/-! ## connectDevice and createTransport runs (C5, C9) -/

theorem getVersion_run (conns : List ConnBehavior) (used : Nat) (tr : List (Nat × Ev))
    (hget : conns.get? used = some goodVersionCb) :
    getVersion ⟨conns, used, tr⟩ =
      (.ok 41,
       ⟨conns, used + 1,
        tr ++ [(used, .write (writeString "host:version")), (used, .closeWritable),
               (used, .cancel)]⟩) := by
  unfold getVersion
  rw [connect_ok_run "host:version" conns used tr goodVersionCb
      (encodeUtf8 "0004" ++ encodeUtf8 "0029") hget rfl (by simp [goodVersionCb, mkConn])]
  simp only []
  rw [show parseVersionPayload (encodeUtf8 "0004" ++ encodeUtf8 "0029") = .ok 41 from rfl]
  simp [emitTo, List.append_assoc]

theorem validateVersion_run (conns : List ConnBehavior) (used : Nat) (tr : List (Nat × Ev))
    (hget : conns.get? used = some goodVersionCb) :
    validateVersion ⟨conns, used, tr⟩ =
      (.ok (),
       ⟨conns, used + 1,
        tr ++ [(used, .write (writeString "host:version")), (used, .closeWritable),
               (used, .cancel)]⟩) := by
  unfold validateVersion
  rw [getVersion_run conns used tr hget]
  rfl

/-- The events `validateVersion` leaves on connection `used`. -/
def versionEvsAt (used : Nat) : List (Nat × Ev) :=
  [(used, .write (writeString "host:version")), (used, .closeWritable), (used, .cancel)]

theorem connectDevice_known_run (n : Nat) (svc : String) (conns : List ConnBehavior)
    (used : Nat) (tr : List (Nat × Ev)) (cb : ConnBehavior) (rest : List Nat)
    (hget0 : conns.get? used = some goodVersionCb)
    (hget1 : conns.get? (used + 1) = some cb)
    (hw0 : cb.writeErr0 = none) (hw1 : cb.writeErr1 = none)
    (hsb : cb.serverBytes = okayBytes ++ (okayBytes ++ rest)) :
    connectDevice (some ⟨some n, none, false, false⟩) svc ⟨conns, used, tr⟩ =
      (.ok ⟨n, svc, rest, used + 1⟩,
       ⟨conns, used + 2,
        tr ++ versionEvsAt used
           ++ [(used + 1, .write (writeString ("host:transport-id:" ++ toString n))),
               (used + 1, .write (writeString svc))]⟩) := by
  unfold connectDevice
  rw [validateVersion_run conns used tr hget0]
  simp only [computeSwitchService]
  rw [connect_ok_run ("host:transport-id:" ++ toString n) conns (used + 1) _ cb
      (okayBytes ++ rest) hget1 hw0 hsb]
  simp only []
  unfold writeConn
  rw [hget1]
  simp only [show (if 1 = 0 then cb.writeErr0 else cb.writeErr1) = cb.writeErr1
      from if_neg (by decide), hw1]
  unfold handshakeReads
  rw [readOkay_okay]
  simp only [emitTo, versionEvsAt]
  simp [List.append_assoc]

theorem connectDevice_resolve_run (dev : AdbServerDeviceSelector) (sw : String)
    (hsw : computeSwitchService dev = .ok (sw, none)) (svc : String)
    (conns : List ConnBehavior) (used : Nat) (tr : List (Nat × Ev)) (cb : ConnBehavior)
    (idBytes rest : List Nat) (h8 : idBytes.length = 8)
    (hget0 : conns.get? used = some goodVersionCb)
    (hget1 : conns.get? (used + 1) = some cb)
    (hw0 : cb.writeErr0 = none) (hw1 : cb.writeErr1 = none)
    (hsb : cb.serverBytes = okayBytes ++ (idBytes ++ (okayBytes ++ rest))) :
    connectDevice dev svc ⟨conns, used, tr⟩ =
      (.ok ⟨uint64LE idBytes, svc, rest, used + 1⟩,
       ⟨conns, used + 2,
        tr ++ versionEvsAt used
           ++ [(used + 1, .write (writeString sw)), (used + 1, .write (writeString svc))]⟩) := by
  unfold connectDevice
  rw [validateVersion_run conns used tr hget0]
  simp only [hsw]
  rw [connect_ok_run sw conns (used + 1) _ cb (idBytes ++ (okayBytes ++ rest)) hget1 hw0 hsb]
  simp only []
  unfold writeConn
  rw [hget1]
  simp only [show (if 1 = 0 then cb.writeErr0 else cb.writeErr1) = cb.writeErr1
      from if_neg (by decide), hw1]
  unfold handshakeReads
  rw [readExactly_of_length 8 idBytes _ h8]
  simp only []
  rw [readOkay_okay]
  simp only [emitTo, versionEvsAt]
  simp [List.append_assoc]



theorem getDevices_run_at (conns : List ConnBehavior) (used : Nat) (tr : List (Nat × Ev))
    (cb : ConnBehavior) (resp : String)
    (hget : conns.get? used = some cb) (hw : cb.writeErr0 = none)
    (hsb : cb.serverBytes = okayBytes ++ writeString resp)
    (hlen : (encodeUtf8 resp).length ≤ 0xFFFF) :
    getDevices ⟨conns, used, tr⟩ =
      (parseDevices resp,
       ⟨conns, used + 1,
        tr ++ [(used, .write (writeString "host:devices-l")), (used, .closeWritable),
               (used, .cancel)]⟩) := by
  unfold getDevices
  rw [connect_ok_run "host:devices-l" conns used tr cb (writeString resp) hget hw hsb]
  simp only []
  rw [show writeString resp = writeString resp ++ [] from (List.append_nil _).symm,
    readString_writeString resp [] hlen]
  simp only []
  cases parseDevices resp <;> simp [emitTo, List.append_assoc]

theorem getDeviceFeatures_run (dev : AdbServerDeviceSelector) (sw : String)
    (hsw : computeSwitchService dev = .ok (sw, none))
    (conns : List ConnBehavior) (used : Nat) (tr : List (Nat × Ev)) (cb : ConnBehavior)
    (idBytes : List Nat) (resp : String) (h8 : idBytes.length = 8)
    (hget0 : conns.get? used = some goodVersionCb)
    (hget1 : conns.get? (used + 1) = some cb)
    (hw0 : cb.writeErr0 = none) (hw1 : cb.writeErr1 = none) (hcl : cb.closeErr = none)
    (hsb : cb.serverBytes = okayBytes ++ (idBytes ++ (okayBytes ++ writeString resp)))
    (hlen : (encodeUtf8 resp).length ≤ 0xFFFF) :
    getDeviceFeatures dev ⟨conns, used, tr⟩ =
      (.ok (uint64LE idBytes, jsSplit ',' resp),
       ⟨conns, used + 2,
        tr ++ versionEvsAt used
           ++ [(used + 1, .write (writeString sw)),
               (used + 1, .write (writeString "host:features")), (used + 1, .close)]⟩) := by
  unfold getDeviceFeatures
  rw [connectDevice_resolve_run dev sw hsw "host:features" conns used tr cb idBytes
      (writeString resp) h8 hget0 hget1 hw0 hw1 hsb]
  simp only []
  rw [show writeString resp = writeString resp ++ [] from (List.append_nil _).symm,
    readString_writeString resp [] hlen]
  simp only []
  unfold closeConn
  rw [hget1]
  simp only [hcl]
  simp [emitTo, List.append_assoc]

theorem getDeviceFeatures_known_run (n : Nat)
    (conns : List ConnBehavior) (used : Nat) (tr : List (Nat × Ev)) (cb : ConnBehavior)
    (resp : String)
    (hget0 : conns.get? used = some goodVersionCb)
    (hget1 : conns.get? (used + 1) = some cb)
    (hw0 : cb.writeErr0 = none) (hw1 : cb.writeErr1 = none) (hcl : cb.closeErr = none)
    (hsb : cb.serverBytes = okayBytes ++ (okayBytes ++ writeString resp))
    (hlen : (encodeUtf8 resp).length ≤ 0xFFFF) :
    getDeviceFeatures (some ⟨some n, none, false, false⟩) ⟨conns, used, tr⟩ =
      (.ok (n, jsSplit ',' resp),
       ⟨conns, used + 2,
        tr ++ versionEvsAt used
           ++ [(used + 1, .write (writeString ("host:transport-id:" ++ toString n))),
               (used + 1, .write (writeString "host:features")), (used + 1, .close)]⟩) := by
  unfold getDeviceFeatures
  rw [connectDevice_known_run n "host:features" conns used tr cb (writeString resp)
      hget0 hget1 hw0 hw1 hsb]
  simp only []
  rw [show writeString resp = writeString resp ++ [] from (List.append_nil _).symm,
    readString_writeString resp [] hlen]
  simp only []
  unfold closeConn
  rw [hget1]
  simp only [hcl]
  simp [emitTo, List.append_assoc]



/-- C5: when the selector is `{transportId: n}` the bind service written
is `host:transport-id:n` and the handshake does not read the 8-byte
transport-id prefix — the returned socket's `transportId` is `n` and its
readable stream starts exactly at the server's post-ack bytes; for every
other selector (switch service resolved with no pre-known id) the
handshake consumes exactly 8 bytes after the bind ack and decodes them
as a little-endian unsigned 64-bit integer, which becomes the returned
socket's `transportId`. -/
theorem claim_C5_transport_id_handshake :
    (∀ (n : Nat) (svc : String) (rest : List Nat),
        connectDevice (some ⟨some n, none, false, false⟩) svc
            (initS [goodVersionCb, tportKnownCb rest]) =
          (.ok ⟨n, svc, rest, 1⟩,
           ⟨[goodVersionCb, tportKnownCb rest], 2,
            versionEvsAt 0
              ++ [(1, .write (writeString ("host:transport-id:" ++ toString n))),
                  (1, .write (writeString svc))]⟩))
    ∧ (∀ (dev : AdbServerDeviceSelector) (sw svc : String) (idBytes rest : List Nat),
        computeSwitchService dev = .ok (sw, none) → idBytes.length = 8 →
        connectDevice dev svc (initS [goodVersionCb, tportCb idBytes rest]) =
          (.ok ⟨uint64LE idBytes, svc, rest, 1⟩,
           ⟨[goodVersionCb, tportCb idBytes rest], 2,
            versionEvsAt 0
              ++ [(1, .write (writeString sw)), (1, .write (writeString svc))]⟩)) := by
  constructor
  · intro n svc rest
    have h := connectDevice_known_run n svc [goodVersionCb, tportKnownCb rest] 0 []
      (tportKnownCb rest) rest rfl rfl rfl rfl rfl
    simpa using h
  · intro dev sw svc idBytes rest hsw h8
    have h := connectDevice_resolve_run dev sw hsw svc [goodVersionCb, tportCb idBytes rest]
      0 [] (tportCb idBytes rest) idBytes rest h8 rfl rfl rfl rfl
      (by simp [tportCb, mkConn, List.append_assoc])
    simpa using h

/-- Witness for C5 at concrete inputs. -/
theorem claim_C5_transport_id_handshake_witness :
    connectDevice (some ⟨some 5, none, false, false⟩) "shell:"
        (initS [goodVersionCb, tportKnownCb [9]]) =
      (.ok ⟨5, "shell:", [9], 1⟩,
       ⟨[goodVersionCb, tportKnownCb [9]], 2,
        versionEvsAt 0
          ++ [(1, .write (writeString ("host:transport-id:" ++ toString 5))),
              (1, .write (writeString "shell:"))]⟩)
    ∧ connectDevice none "shell:"
        (initS [goodVersionCb, tportCb [7, 0, 0, 0, 0, 0, 0, 0] [9]]) =
      (.ok ⟨uint64LE [7, 0, 0, 0, 0, 0, 0, 0], "shell:", [9], 1⟩,
       ⟨[goodVersionCb, tportCb [7, 0, 0, 0, 0, 0, 0, 0] [9]], 2,
        versionEvsAt 0
          ++ [(1, .write (writeString "host:tport:any")),
              (1, .write (writeString "shell:"))]⟩) :=
  ⟨claim_C5_transport_id_handshake.1 5 "shell:" [9],
   claim_C5_transport_id_handshake.2 none "host:tport:any" "shell:"
     [7, 0, 0, 0, 0, 0, 0, 0] [9] rfl (by decide)⟩

/-- C9: in `createTransport(selector)`, when no entry of the subsequent
`getDevices()` listing has the transport id resolved by
`getDeviceFeatures`, the returned transport has the empty string as its
serial and a banner whose product, model and device are absent, while
the feature list is still the one obtained from `getDeviceFeatures`. -/
theorem claim_C9_absent_device_transport :
    ∀ (dev : AdbServerDeviceSelector) (sw : String),
      computeSwitchService dev = .ok (sw, none) →
      ∀ (idBytes : List Nat) (featResp devResp : String), idBytes.length = 8 →
        (encodeUtf8 featResp).length ≤ 0xFFFF →
        (encodeUtf8 devResp).length ≤ 0xFFFF →
        ∀ ds : List AdbServerDevice, parseDevices devResp = .ok ds →
          (∀ d ∈ ds, d.transportId ≠ uint64LE idBytes) →
          (createTransport dev (initS
              [goodVersionCb, tportCb idBytes (writeString featResp), replyCb devResp])).1
            = .ok ⟨"", ⟨none, none, none, jsSplit ',' featResp⟩, uint64LE idBytes⟩ := by
  intro dev sw hsw idBytes featResp devResp h8 hlen1 hlen2 ds hparse habsent
  unfold createTransport initS
  rw [getDeviceFeatures_run dev sw hsw
      [goodVersionCb, tportCb idBytes (writeString featResp), replyCb devResp] 0 []
      (tportCb idBytes (writeString featResp)) idBytes featResp h8 rfl rfl rfl rfl rfl
      (by simp [tportCb, mkConn, List.append_assoc]) hlen1]
  simp only []
  rw [getDevices_run_at
      [goodVersionCb, tportCb idBytes (writeString featResp), replyCb devResp] 2 _
      (replyCb devResp) devResp rfl rfl rfl hlen2]
  rw [hparse]
  simp only []
  have hfind : ds.find? (fun d => d.transportId = uint64LE idBytes) = none := by
    rw [List.find?_eq_none]
    intro d hd
    simp [habsent d hd]
  rw [hfind]
  rfl

/-- Witness for C9 at concrete inputs. -/
theorem claim_C9_absent_device_transport_witness :
    (createTransport none (initS
        [goodVersionCb, tportCb [7, 0, 0, 0, 0, 0, 0, 0] (writeString "cmd,shell_v2"),
         replyCb ""])).1
      = .ok ⟨"", ⟨none, none, none, jsSplit ',' "cmd,shell_v2"⟩,
             uint64LE [7, 0, 0, 0, 0, 0, 0, 0]⟩ :=
  claim_C9_absent_device_transport none "host:tport:any" rfl [7, 0, 0, 0, 0, 0, 0, 0]
    "cmd,shell_v2" "" (by decide) (by decide) (by decide) [] rfl (by simp)


/-! ## Selector dispatch and aborted signals (C3, C4) -/

/-- C3 counterexample: a selector carrying two recognised discriminants
(`transportId` and `serial`) does not fail with `InvalidSelector` as the
claim states — both `formatDeviceService` and the `connectDevice`
dispatch produce the transport-id service string. -/
theorem claim_C3_counterexample :
    formatDeviceService (some ⟨some 1, some "x", false, false⟩) "cmd"
        = .ok "host-transport-id:1:cmd"
    ∧ computeSwitchService (some ⟨some 1, some "x", false, false⟩)
        = .ok ("host:transport-id:1", some 1)
    ∧ (.ok "host-transport-id:1:cmd" : Except AdbError String)
        ≠ .error .invalidSelector := by
  refine ⟨rfl, rfl, ?_⟩
  intro h
  cases h

/-- C3 amended: only an object selector with zero recognised
discriminants fails with `InvalidSelector`, in `formatDeviceService`, in
the dispatch (`computeSwitchService`) and hence in `connectDevice`
itself; when several discriminants are present the first one in the
order `transportId`, `serial`, `usb`, `tcp` takes effect and the others
are ignored. -/
theorem claim_C3_amended :
    (∀ c : String, formatDeviceService (some ⟨none, none, false, false⟩) c
        = .error .invalidSelector)
    ∧ computeSwitchService (some ⟨none, none, false, false⟩) = .error .invalidSelector
    ∧ (∀ svc : String,
        (connectDevice (some ⟨none, none, false, false⟩) svc (initS [goodVersionCb])).1
          = .error .invalidSelector)
    ∧ (∀ (t : Nat) (so : Option String) (u p : Bool) (c : String),
        formatDeviceService (some ⟨some t, so, u, p⟩) c
          = .ok ("host-transport-id:" ++ toString t ++ ":" ++ c)
        ∧ computeSwitchService (some ⟨some t, so, u, p⟩)
          = .ok ("host:transport-id:" ++ toString t, some t))
    ∧ (∀ (sn : String) (u p : Bool) (c : String),
        formatDeviceService (some ⟨none, some sn, u, p⟩) c
          = .ok ("host-serial:" ++ sn ++ ":" ++ c)
        ∧ computeSwitchService (some ⟨none, some sn, u, p⟩)
          = .ok ("host:tport:serial:" ++ sn, none))
    ∧ (∀ p : Bool, ∀ c : String,
        formatDeviceService (some ⟨none, none, true, p⟩) c = .ok ("host-usb:" ++ c)
        ∧ computeSwitchService (some ⟨none, none, true, p⟩)
          = .ok ("host:tport:usb", none)) := by
  refine ⟨fun c => rfl, rfl, fun svc => ?_, fun t so u p c => ⟨rfl, rfl⟩,
    fun sn u p c => ⟨rfl, rfl⟩, fun p c => ⟨rfl, rfl⟩⟩
  unfold connectDevice initS
  rw [validateVersion_run [goodVersionCb] 0 [] rfl]
  rfl

/-- C4 counterexample: with an already-aborted signal and a connector
that still yields a connection, `connect` does fail with the signal's
reason, but the request frame (a non-empty byte sequence) has been
written to the transport before the failure, contradicting the claim's
"no bytes are written". -/
theorem claim_C4_counterexample :
    connect "host:version" (some ⟨true, .aborted "stop"⟩) (initS [mkConn okayBytes])
      = (.error (.aborted "stop"),
         ⟨[mkConn okayBytes], 1,
          [(0, .write (writeString "host:version")), (0, .cancel), (0, .close)]⟩)
    ∧ writeString "host:version" ≠ [] := by
  exact ⟨rfl, by decide⟩

/-- C4 amended: if the supplied signal is already aborted when
`connect(request, {signal})` runs against a connection, the call fails
with the signal's reason without attempting the ack read (the outcome is
independent of the server's bytes), and the reader is cancelled and the
connection closed before the error is raised — but the request frame has
already been written. -/
theorem claim_C4_amended :
    ∀ (request : String) (reason : AdbError) (conns : List ConnBehavior) (used : Nat)
      (tr : List (Nat × Ev)) (cb : ConnBehavior),
      conns.get? used = some cb → cb.writeErr0 = none → cb.closeErr = none →
      connect request (some ⟨true, reason⟩) ⟨conns, used, tr⟩ =
        (.error reason,
         ⟨conns, used + 1,
          tr ++ [(used, .write (writeString request)), (used, .cancel), (used, .close)]⟩) := by
  intro request reason conns used tr cb hget hw hcl
  unfold connect dial writeConn cancelConnNoop closeConn raceSignal emitTo
  simp only [hget, hw, hcl, if_true, ite_true]
  simp [List.append_assoc]

/-- Witness for C4 amended at a concrete connection. -/
theorem claim_C4_amended_witness :
    connect "hi" (some ⟨true, .aborted "x"⟩) ⟨[mkConn []], 0, []⟩ =
      (.error (.aborted "x"),
       ⟨[mkConn []], 1, [(0, .write (writeString "hi")), (0, .cancel), (0, .close)]⟩) :=
  claim_C4_amended "hi" (.aborted "x") [mkConn []] 0 [] (mkConn []) rfl rfl rfl


/-! ## Error-path cleanup characterization (C1) -/

theorem connect_err_write_cancel (request : String) (sig : Option Signal)
    (conns : List ConnBehavior) (used : Nat) (tr : List (Nat × Ev)) (cb : ConnBehavior)
    (w ce : AdbError) (hget : conns.get? used = some cb)
    (hw : cb.writeErr0 = some w) (hc : cb.cancelErr = some ce) :
    connect request sig ⟨conns, used, tr⟩ =
      (.error ce, ⟨conns, used + 1, tr ++ [(used, .cancel)]⟩) := by
  unfold connect dial writeConn cancelConn emitTo
  simp only [hget, hw, hc, if_true, ite_true]

theorem connect_err_write_close (request : String) (sig : Option Signal)
    (conns : List ConnBehavior) (used : Nat) (tr : List (Nat × Ev)) (cb : ConnBehavior)
    (w xe : AdbError) (hget : conns.get? used = some cb)
    (hw : cb.writeErr0 = some w) (hc : cb.cancelErr = none) (hcl : cb.closeErr = some xe) :
    connect request sig ⟨conns, used, tr⟩ =
      (.error xe, ⟨conns, used + 1, tr ++ [(used, .cancel), (used, .close)]⟩) := by
  unfold connect dial writeConn cancelConn closeConn emitTo
  simp only [hget, hw, hc, hcl, if_true, ite_true]
  simp [List.append_assoc]

theorem connect_err_write_clean (request : String) (sig : Option Signal)
    (conns : List ConnBehavior) (used : Nat) (tr : List (Nat × Ev)) (cb : ConnBehavior)
    (w : AdbError) (hget : conns.get? used = some cb)
    (hw : cb.writeErr0 = some w) (hc : cb.cancelErr = none) (hcl : cb.closeErr = none) :
    connect request sig ⟨conns, used, tr⟩ =
      (.error w, ⟨conns, used + 1, tr ++ [(used, .cancel), (used, .close)]⟩) := by
  unfold connect dial writeConn cancelConn closeConn emitTo
  simp only [hget, hw, hc, hcl, if_true, ite_true]
  simp [List.append_assoc]

theorem connect_err_ack_close (request : String) (sig : Option Signal)
    (conns : List ConnBehavior) (used : Nat) (tr : List (Nat × Ev)) (cb : ConnBehavior)
    (e0 xe : AdbError) (hget : conns.get? used = some cb)
    (hw : cb.writeErr0 = none)
    (hrace : raceSignal (fun _ => readOkay cb.serverBytes) sig = .error e0)
    (hcl : cb.closeErr = some xe) :
    connect request sig ⟨conns, used, tr⟩ =
      (.error xe,
       ⟨conns, used + 1,
        tr ++ [(used, .write (writeString request)), (used, .cancel), (used, .close)]⟩) := by
  unfold connect dial writeConn cancelConnNoop closeConn emitTo
  simp only [hget, hw, hrace, hcl, if_true, ite_true]
  simp [List.append_assoc]

theorem connect_err_ack_clean (request : String) (sig : Option Signal)
    (conns : List ConnBehavior) (used : Nat) (tr : List (Nat × Ev)) (cb : ConnBehavior)
    (e0 : AdbError) (hget : conns.get? used = some cb)
    (hw : cb.writeErr0 = none)
    (hrace : raceSignal (fun _ => readOkay cb.serverBytes) sig = .error e0)
    (hcl : cb.closeErr = none) :
    connect request sig ⟨conns, used, tr⟩ =
      (.error e0,
       ⟨conns, used + 1,
        tr ++ [(used, .write (writeString request)), (used, .cancel), (used, .close)]⟩) := by
  unfold connect dial writeConn cancelConnNoop closeConn emitTo
  simp only [hget, hw, hrace, hcl, if_true, ite_true]
  simp [List.append_assoc]



theorem connectDevice_err_svcWrite_cancel (dev : AdbServerDeviceSelector) (sw : String)
    (kid : Option Nat) (hsw : computeSwitchService dev = .ok (sw, kid)) (svc : String)
    (conns : List ConnBehavior) (used : Nat) (tr : List (Nat × Ev)) (cb : ConnBehavior)
    (rest0 : List Nat) (w ce : AdbError)
    (hget0 : conns.get? used = some goodVersionCb)
    (hget1 : conns.get? (used + 1) = some cb)
    (hw0 : cb.writeErr0 = none) (hsb : cb.serverBytes = okayBytes ++ rest0)
    (hw1 : cb.writeErr1 = some w) (hc : cb.cancelErr = some ce) :
    connectDevice dev svc ⟨conns, used, tr⟩ =
      (.error ce,
       ⟨conns, used + 2,
        tr ++ versionEvsAt used
           ++ [(used + 1, .write (writeString sw)), (used + 1, .cancel)]⟩) := by
  unfold connectDevice
  rw [validateVersion_run conns used tr hget0]
  simp only [hsw]
  rw [connect_ok_run sw conns (used + 1) _ cb rest0 hget1 hw0 hsb]
  simp only []
  unfold writeConn cancelConn emitTo
  rw [hget1]
  simp only [show (if 1 = 0 then cb.writeErr0 else cb.writeErr1) = cb.writeErr1
      from if_neg (by decide), hw1, hget1, hc]
  have hget1x : conns[used + 1]? = some cb := by simpa using hget1
  simp [versionEvsAt, List.append_assoc, hget1x, hc]

theorem connectDevice_err_svcWrite_close (dev : AdbServerDeviceSelector) (sw : String)
    (kid : Option Nat) (hsw : computeSwitchService dev = .ok (sw, kid)) (svc : String)
    (conns : List ConnBehavior) (used : Nat) (tr : List (Nat × Ev)) (cb : ConnBehavior)
    (rest0 : List Nat) (w xe : AdbError)
    (hget0 : conns.get? used = some goodVersionCb)
    (hget1 : conns.get? (used + 1) = some cb)
    (hw0 : cb.writeErr0 = none) (hsb : cb.serverBytes = okayBytes ++ rest0)
    (hw1 : cb.writeErr1 = some w) (hc : cb.cancelErr = none) (hcl : cb.closeErr = some xe) :
    connectDevice dev svc ⟨conns, used, tr⟩ =
      (.error xe,
       ⟨conns, used + 2,
        tr ++ versionEvsAt used
           ++ [(used + 1, .write (writeString sw)), (used + 1, .cancel),
               (used + 1, .close)]⟩) := by
  unfold connectDevice
  rw [validateVersion_run conns used tr hget0]
  simp only [hsw]
  rw [connect_ok_run sw conns (used + 1) _ cb rest0 hget1 hw0 hsb]
  simp only []
  unfold writeConn cancelConn closeConn emitTo
  rw [hget1]
  simp only [show (if 1 = 0 then cb.writeErr0 else cb.writeErr1) = cb.writeErr1
      from if_neg (by decide), hw1, hget1, hc, hcl]
  have hget1x : conns[used + 1]? = some cb := by simpa using hget1
  simp [versionEvsAt, List.append_assoc, hget1x, hc, hcl]

theorem connectDevice_err_svcWrite_clean (dev : AdbServerDeviceSelector) (sw : String)
    (kid : Option Nat) (hsw : computeSwitchService dev = .ok (sw, kid)) (svc : String)
    (conns : List ConnBehavior) (used : Nat) (tr : List (Nat × Ev)) (cb : ConnBehavior)
    (rest0 : List Nat) (w : AdbError)
    (hget0 : conns.get? used = some goodVersionCb)
    (hget1 : conns.get? (used + 1) = some cb)
    (hw0 : cb.writeErr0 = none) (hsb : cb.serverBytes = okayBytes ++ rest0)
    (hw1 : cb.writeErr1 = some w) (hc : cb.cancelErr = none) (hcl : cb.closeErr = none) :
    connectDevice dev svc ⟨conns, used, tr⟩ =
      (.error w,
       ⟨conns, used + 2,
        tr ++ versionEvsAt used
           ++ [(used + 1, .write (writeString sw)), (used + 1, .cancel),
               (used + 1, .close)]⟩) := by
  unfold connectDevice
  rw [validateVersion_run conns used tr hget0]
  simp only [hsw]
  rw [connect_ok_run sw conns (used + 1) _ cb rest0 hget1 hw0 hsb]
  simp only []
  unfold writeConn cancelConn closeConn emitTo
  rw [hget1]
  simp only [show (if 1 = 0 then cb.writeErr0 else cb.writeErr1) = cb.writeErr1
      from if_neg (by decide), hw1, hget1, hc, hcl]
  have hget1x : conns[used + 1]? = some cb := by simpa using hget1
  simp [versionEvsAt, List.append_assoc, hget1x, hc, hcl]

theorem connectDevice_err_handshake_close (dev : AdbServerDeviceSelector) (sw : String)
    (kid : Option Nat) (hsw : computeSwitchService dev = .ok (sw, kid)) (svc : String)
    (conns : List ConnBehavior) (used : Nat) (tr : List (Nat × Ev)) (cb : ConnBehavior)
    (rest0 : List Nat) (e0 xe : AdbError)
    (hget0 : conns.get? used = some goodVersionCb)
    (hget1 : conns.get? (used + 1) = some cb)
    (hw0 : cb.writeErr0 = none) (hsb : cb.serverBytes = okayBytes ++ rest0)
    (hw1 : cb.writeErr1 = none) (hh : handshakeReads kid rest0 = .error e0)
    (hcl : cb.closeErr = some xe) :
    connectDevice dev svc ⟨conns, used, tr⟩ =
      (.error xe,
       ⟨conns, used + 2,
        tr ++ versionEvsAt used
           ++ [(used + 1, .write (writeString sw)), (used + 1, .write (writeString svc)),
               (used + 1, .cancel), (used + 1, .close)]⟩) := by
  unfold connectDevice
  rw [validateVersion_run conns used tr hget0]
  simp only [hsw]
  rw [connect_ok_run sw conns (used + 1) _ cb rest0 hget1 hw0 hsb]
  simp only []
  unfold writeConn cancelConnNoop closeConn emitTo
  rw [hget1]
  simp only [show (if 1 = 0 then cb.writeErr0 else cb.writeErr1) = cb.writeErr1
      from if_neg (by decide), hw1, hget1, hh, hcl]
  have hget1x : conns[used + 1]? = some cb := by simpa using hget1
  simp [versionEvsAt, List.append_assoc, hget1x, hh, hcl]

theorem connectDevice_err_handshake_clean (dev : AdbServerDeviceSelector) (sw : String)
    (kid : Option Nat) (hsw : computeSwitchService dev = .ok (sw, kid)) (svc : String)
    (conns : List ConnBehavior) (used : Nat) (tr : List (Nat × Ev)) (cb : ConnBehavior)
    (rest0 : List Nat) (e0 : AdbError)
    (hget0 : conns.get? used = some goodVersionCb)
    (hget1 : conns.get? (used + 1) = some cb)
    (hw0 : cb.writeErr0 = none) (hsb : cb.serverBytes = okayBytes ++ rest0)
    (hw1 : cb.writeErr1 = none) (hh : handshakeReads kid rest0 = .error e0)
    (hcl : cb.closeErr = none) :
    connectDevice dev svc ⟨conns, used, tr⟩ =
      (.error e0,
       ⟨conns, used + 2,
        tr ++ versionEvsAt used
           ++ [(used + 1, .write (writeString sw)), (used + 1, .write (writeString svc)),
               (used + 1, .cancel), (used + 1, .close)]⟩) := by
  unfold connectDevice
  rw [validateVersion_run conns used tr hget0]
  simp only [hsw]
  rw [connect_ok_run sw conns (used + 1) _ cb rest0 hget1 hw0 hsb]
  simp only []
  unfold writeConn cancelConnNoop closeConn emitTo
  rw [hget1]
  simp only [show (if 1 = 0 then cb.writeErr0 else cb.writeErr1) = cb.writeErr1
      from if_neg (by decide), hw1, hget1, hh, hcl]
  have hget1x : conns[used + 1]? = some cb := by simpa using hget1
  simp [versionEvsAt, List.append_assoc, hget1x, hh, hcl]



/-- C1 counterexample: when the request write fails with one error and
`readable.cancel()` rejects with another, `connect` raises the cancel
rejection instead of the original error and never invokes `close()` —
contradicting the claim that cancellation errors are swallowed, that
`close()` is invoked, and that the original error is raised. -/
theorem claim_C1_counterexample :
    connect "x" none (initS [⟨[], some .decodeError, none, some .unexpectedEnd, none⟩])
      = (.error .unexpectedEnd,
         ⟨[⟨[], some .decodeError, none, some .unexpectedEnd, none⟩], 1, [(0, .cancel)]⟩)
    ∧ AdbError.unexpectedEnd ≠ AdbError.decodeError
    ∧ (0, Ev.close) ∉ [((0 : Nat), Ev.cancel)] :=
  ⟨rfl, by decide, by decide⟩

/-- C1 amended: a complete characterization of every error path of
`connect` and `connectDevice` after a connection has been obtained. The
reader's cancel is always invoked first; `close()` follows unless an
unswallowed cancel rejection pre-empts it (possible only in the two
write-failure catch blocks, where neither cancel nor close rejections
are caught); in the post-write (ack / handshake) catch blocks the cancel
rejection is swallowed but a close rejection still replaces the original
error; when cancel and close succeed, the original error is raised. -/
theorem claim_C1_cleanup_characterization :
    (∀ (request : String) (sig : Option Signal) (conns : List ConnBehavior) (used : Nat)
        (tr : List (Nat × Ev)) (cb : ConnBehavior) (w ce : AdbError),
        conns.get? used = some cb → cb.writeErr0 = some w → cb.cancelErr = some ce →
        connect request sig ⟨conns, used, tr⟩ =
          (.error ce, ⟨conns, used + 1, tr ++ [(used, .cancel)]⟩))
    ∧ (∀ (request : String) (sig : Option Signal) (conns : List ConnBehavior) (used : Nat)
        (tr : List (Nat × Ev)) (cb : ConnBehavior) (w xe : AdbError),
        conns.get? used = some cb → cb.writeErr0 = some w → cb.cancelErr = none →
        cb.closeErr = some xe →
        connect request sig ⟨conns, used, tr⟩ =
          (.error xe, ⟨conns, used + 1, tr ++ [(used, .cancel), (used, .close)]⟩))
    ∧ (∀ (request : String) (sig : Option Signal) (conns : List ConnBehavior) (used : Nat)
        (tr : List (Nat × Ev)) (cb : ConnBehavior) (w : AdbError),
        conns.get? used = some cb → cb.writeErr0 = some w → cb.cancelErr = none →
        cb.closeErr = none →
        connect request sig ⟨conns, used, tr⟩ =
          (.error w, ⟨conns, used + 1, tr ++ [(used, .cancel), (used, .close)]⟩))
    ∧ (∀ (request : String) (sig : Option Signal) (conns : List ConnBehavior) (used : Nat)
        (tr : List (Nat × Ev)) (cb : ConnBehavior) (e0 xe : AdbError),
        conns.get? used = some cb → cb.writeErr0 = none →
        raceSignal (fun _ => readOkay cb.serverBytes) sig = .error e0 →
        cb.closeErr = some xe →
        connect request sig ⟨conns, used, tr⟩ =
          (.error xe,
           ⟨conns, used + 1,
            tr ++ [(used, .write (writeString request)), (used, .cancel), (used, .close)]⟩))
    ∧ (∀ (request : String) (sig : Option Signal) (conns : List ConnBehavior) (used : Nat)
        (tr : List (Nat × Ev)) (cb : ConnBehavior) (e0 : AdbError),
        conns.get? used = some cb → cb.writeErr0 = none →
        raceSignal (fun _ => readOkay cb.serverBytes) sig = .error e0 →
        cb.closeErr = none →
        connect request sig ⟨conns, used, tr⟩ =
          (.error e0,
           ⟨conns, used + 1,
            tr ++ [(used, .write (writeString request)), (used, .cancel), (used, .close)]⟩))
    ∧ (∀ (dev : AdbServerDeviceSelector) (sw : String) (kid : Option Nat) (svc : String)
        (conns : List ConnBehavior) (used : Nat) (tr : List (Nat × Ev)) (cb : ConnBehavior)
        (rest0 : List Nat) (w ce : AdbError),
        computeSwitchService dev = .ok (sw, kid) →
        conns.get? used = some goodVersionCb → conns.get? (used + 1) = some cb →
        cb.writeErr0 = none → cb.serverBytes = okayBytes ++ rest0 →
        cb.writeErr1 = some w → cb.cancelErr = some ce →
        connectDevice dev svc ⟨conns, used, tr⟩ =
          (.error ce,
           ⟨conns, used + 2,
            tr ++ versionEvsAt used
               ++ [(used + 1, .write (writeString sw)), (used + 1, .cancel)]⟩))
    ∧ (∀ (dev : AdbServerDeviceSelector) (sw : String) (kid : Option Nat) (svc : String)
        (conns : List ConnBehavior) (used : Nat) (tr : List (Nat × Ev)) (cb : ConnBehavior)
        (rest0 : List Nat) (w xe : AdbError),
        computeSwitchService dev = .ok (sw, kid) →
        conns.get? used = some goodVersionCb → conns.get? (used + 1) = some cb →
        cb.writeErr0 = none → cb.serverBytes = okayBytes ++ rest0 →
        cb.writeErr1 = some w → cb.cancelErr = none → cb.closeErr = some xe →
        connectDevice dev svc ⟨conns, used, tr⟩ =
          (.error xe,
           ⟨conns, used + 2,
            tr ++ versionEvsAt used
               ++ [(used + 1, .write (writeString sw)), (used + 1, .cancel),
                   (used + 1, .close)]⟩))
    ∧ (∀ (dev : AdbServerDeviceSelector) (sw : String) (kid : Option Nat) (svc : String)
        (conns : List ConnBehavior) (used : Nat) (tr : List (Nat × Ev)) (cb : ConnBehavior)
        (rest0 : List Nat) (w : AdbError),
        computeSwitchService dev = .ok (sw, kid) →
        conns.get? used = some goodVersionCb → conns.get? (used + 1) = some cb →
        cb.writeErr0 = none → cb.serverBytes = okayBytes ++ rest0 →
        cb.writeErr1 = some w → cb.cancelErr = none → cb.closeErr = none →
        connectDevice dev svc ⟨conns, used, tr⟩ =
          (.error w,
           ⟨conns, used + 2,
            tr ++ versionEvsAt used
               ++ [(used + 1, .write (writeString sw)), (used + 1, .cancel),
                   (used + 1, .close)]⟩))
    ∧ (∀ (dev : AdbServerDeviceSelector) (sw : String) (kid : Option Nat) (svc : String)
        (conns : List ConnBehavior) (used : Nat) (tr : List (Nat × Ev)) (cb : ConnBehavior)
        (rest0 : List Nat) (e0 xe : AdbError),
        computeSwitchService dev = .ok (sw, kid) →
        conns.get? used = some goodVersionCb → conns.get? (used + 1) = some cb →
        cb.writeErr0 = none → cb.serverBytes = okayBytes ++ rest0 →
        cb.writeErr1 = none → handshakeReads kid rest0 = .error e0 →
        cb.closeErr = some xe →
        connectDevice dev svc ⟨conns, used, tr⟩ =
          (.error xe,
           ⟨conns, used + 2,
            tr ++ versionEvsAt used
               ++ [(used + 1, .write (writeString sw)),
                   (used + 1, .write (writeString svc)), (used + 1, .cancel),
                   (used + 1, .close)]⟩))
    ∧ (∀ (dev : AdbServerDeviceSelector) (sw : String) (kid : Option Nat) (svc : String)
        (conns : List ConnBehavior) (used : Nat) (tr : List (Nat × Ev)) (cb : ConnBehavior)
        (rest0 : List Nat) (e0 : AdbError),
        computeSwitchService dev = .ok (sw, kid) →
        conns.get? used = some goodVersionCb → conns.get? (used + 1) = some cb →
        cb.writeErr0 = none → cb.serverBytes = okayBytes ++ rest0 →
        cb.writeErr1 = none → handshakeReads kid rest0 = .error e0 →
        cb.closeErr = none →
        connectDevice dev svc ⟨conns, used, tr⟩ =
          (.error e0,
           ⟨conns, used + 2,
            tr ++ versionEvsAt used
               ++ [(used + 1, .write (writeString sw)),
                   (used + 1, .write (writeString svc)), (used + 1, .cancel),
                   (used + 1, .close)]⟩)) := by
  refine ⟨?_, ?_, ?_, ?_, ?_, ?_, ?_, ?_, ?_, ?_⟩
  · intro request sig conns used tr cb w ce hget hw hc
    exact connect_err_write_cancel request sig conns used tr cb w ce hget hw hc
  · intro request sig conns used tr cb w xe hget hw hc hcl
    exact connect_err_write_close request sig conns used tr cb w xe hget hw hc hcl
  · intro request sig conns used tr cb w hget hw hc hcl
    exact connect_err_write_clean request sig conns used tr cb w hget hw hc hcl
  · intro request sig conns used tr cb e0 xe hget hw hrace hcl
    exact connect_err_ack_close request sig conns used tr cb e0 xe hget hw hrace hcl
  · intro request sig conns used tr cb e0 hget hw hrace hcl
    exact connect_err_ack_clean request sig conns used tr cb e0 hget hw hrace hcl
  · intro dev sw kid svc conns used tr cb rest0 w ce hsw hget0 hget1 hw0 hsb hw1 hc
    exact connectDevice_err_svcWrite_cancel dev sw kid hsw svc conns used tr cb rest0 w ce
      hget0 hget1 hw0 hsb hw1 hc
  · intro dev sw kid svc conns used tr cb rest0 w xe hsw hget0 hget1 hw0 hsb hw1 hc hcl
    exact connectDevice_err_svcWrite_close dev sw kid hsw svc conns used tr cb rest0 w xe
      hget0 hget1 hw0 hsb hw1 hc hcl
  · intro dev sw kid svc conns used tr cb rest0 w hsw hget0 hget1 hw0 hsb hw1 hc hcl
    exact connectDevice_err_svcWrite_clean dev sw kid hsw svc conns used tr cb rest0 w
      hget0 hget1 hw0 hsb hw1 hc hcl
  · intro dev sw kid svc conns used tr cb rest0 e0 xe hsw hget0 hget1 hw0 hsb hw1 hh hcl
    exact connectDevice_err_handshake_close dev sw kid hsw svc conns used tr cb rest0 e0 xe
      hget0 hget1 hw0 hsb hw1 hh hcl
  · intro dev sw kid svc conns used tr cb rest0 e0 hsw hget0 hget1 hw0 hsb hw1 hh hcl
    exact connectDevice_err_handshake_clean dev sw kid hsw svc conns used tr cb rest0 e0
      hget0 hget1 hw0 hsb hw1 hh hcl

/-- Witness for C1 at concrete scripted connections. -/
theorem claim_C1_cleanup_characterization_witness :
    connect "x" none (initS [⟨[], some .decodeError, none, some .unexpectedEnd, none⟩])
      = (.error .unexpectedEnd,
         ⟨[⟨[], some .decodeError, none, some .unexpectedEnd, none⟩], 1, [(0, .cancel)]⟩)
    ∧ connect "x" none (initS [⟨failBytes ++ writeString "no", none, none, none, none⟩])
      = (.error (.protocolFailure "no"),
         ⟨[⟨failBytes ++ writeString "no", none, none, none, none⟩], 1,
          [(0, .write (writeString "x")), (0, .cancel), (0, .close)]⟩)
    ∧ connectDevice none "shell:" (initS [goodVersionCb, mkConn okayBytes])
      = (.error .unexpectedEnd,
         ⟨[goodVersionCb, mkConn okayBytes], 2,
          versionEvsAt 0
            ++ [(1, .write (writeString "host:tport:any")),
                (1, .write (writeString "shell:")), (1, .cancel), (1, .close)]⟩) := by
  refine ⟨?_, ?_, ?_⟩
  · exact claim_C1_cleanup_characterization.1 "x" none _ 0 [] _ .decodeError .unexpectedEnd
      rfl rfl rfl
  · exact claim_C1_cleanup_characterization.2.2.2.2.1 "x" none _ 0 [] _
      (.protocolFailure "no") rfl rfl
      (by
        show readOkay (failBytes ++ writeString "no") = .error (.protocolFailure "no")
        rfl)
      rfl
  · exact claim_C1_cleanup_characterization.2.2.2.2.2.2.2.2.2 none "host:tport:any" none
      "shell:" _ 0 [] (mkConn okayBytes) [] .unexpectedEnd rfl rfl rfl rfl
      (by simp [mkConn]) rfl rfl rfl

end AdbSpec
